import Mathlib

/-!
Verification of the iterative refinement controller of the-muse-bot.

Sources of truth: `src/src/context/AIContext.tsx` (the live controller: JSON
extraction, critique validation, the generate-critique refinement loop) and
`src/src/context/BadAIContext copy.tsx` (the variant holding the
creative-direction sampler and the `scoreRank` grade table).

JavaScript values parsed from model output are embedded as `JSValue`;
`JSON.parse` is embedded as a fuelled recursive-descent parser producing exact
rationals (`JSON.parse` rounds to binary floating point, which is irrelevant
here: every number the claims exercise is a small integer).  The regex-based
extraction of `extractAndParseJSON` is embedded pattern by pattern through the
observable match semantics of each of the four source patterns.  Model calls
are embedded as an oracle: a list of `Except String String`, one entry per
`sendMessage`/`response.text()` round trip, where an `error` entry is a call
that throws (provider/transport failure).
-/

/-- JavaScript whitespace, as matched by the regex class `\s` and by
`String.prototype.trim` (ASCII range; the inputs at issue use no exotic spaces). -/
def isJsWs (c : Char) : Bool :=
  c = ' ' || c = '\t' || c = '\n' || c = '\r' || c = Char.ofNat 11 || c = Char.ofNat 12

/-- Whitespace accepted between tokens by strict JSON parsing (`JSON.parse`). -/
def isJsonWs (c : Char) : Bool :=
  c = ' ' || c = '\t' || c = '\n' || c = '\r'

/-- Executable rational numbers embedding JavaScript's number arithmetic on the
values this program computes with (all exact decimals; `den = 0` encodes NaN,
which arises only as `0/0` from averaging an empty ratings array).  A separate
type is used instead of `ℚ` so that every operation reduces inside the kernel,
letting concrete runs of the controller be settled by `decide`. -/
structure JQ where
  num : ℤ
  den : ℕ
deriving DecidableEq

/-- Normalized fraction `n / d` (for `d ≠ 0`); `d = 0` gives NaN. -/
def JQ.normalize (n : ℤ) (d : ℕ) : JQ :=
  if d = 0 then ⟨0, 0⟩
  else
    let g := Nat.gcd n.natAbs d
    ⟨n / (g : ℤ), d / g⟩

def JQ.ofInt (n : ℤ) : JQ := ⟨n, 1⟩

instance : OfNat JQ n := ⟨⟨(n : ℤ), 1⟩⟩

/-- NaN propagates through arithmetic, as in JavaScript. -/
def JQ.add (a b : JQ) : JQ :=
  if a.den = 0 ∨ b.den = 0 then ⟨0, 0⟩
  else JQ.normalize (a.num * (b.den : ℤ) + b.num * (a.den : ℤ)) (a.den * b.den)

def JQ.sub (a b : JQ) : JQ :=
  if a.den = 0 ∨ b.den = 0 then ⟨0, 0⟩
  else JQ.normalize (a.num * (b.den : ℤ) - b.num * (a.den : ℤ)) (a.den * b.den)

def JQ.mul (a b : JQ) : JQ :=
  if a.den = 0 ∨ b.den = 0 then ⟨0, 0⟩
  else JQ.normalize (a.num * b.num) (a.den * b.den)

/-- Division; `x / 0` is collapsed to NaN (the program only divides by zero as
`0 / 0`, averaging an empty list, which is NaN in JavaScript as well). -/
def JQ.div (a b : JQ) : JQ :=
  if a.den = 0 ∨ b.den = 0 ∨ b.num = 0 then ⟨0, 0⟩
  else
    if 0 ≤ b.num then JQ.normalize (a.num * (b.den : ℤ)) (a.den * b.num.natAbs)
    else JQ.normalize (-(a.num * (b.den : ℤ))) (a.den * b.num.natAbs)

/-- `a <= b` in JavaScript: false when either side is NaN. -/
def JQ.le (a b : JQ) : Bool :=
  if a.den = 0 ∨ b.den = 0 then false
  else a.num * (b.den : ℤ) ≤ b.num * (a.den : ℤ)

/-- `a < b` in JavaScript: false when either side is NaN. -/
def JQ.lt (a b : JQ) : Bool :=
  if a.den = 0 ∨ b.den = 0 then false
  else a.num * (b.den : ℤ) < b.num * (a.den : ℤ)

/-- JavaScript truthiness of a number: `0`, `-0` and `NaN` are falsy. -/
def JQ.truthy (a : JQ) : Bool := !(a.num = 0)

/-- The value space of `JSON.parse`: null, booleans, (finite) numbers, strings,
arrays and objects.  Object fields are kept in textual order; duplicate keys are
kept and resolved on lookup (last occurrence wins, as in `JSON.parse`). -/
inductive JSValue where
  | null : JSValue
  | bool (b : Bool) : JSValue
  | num (q : JQ) : JSValue
  | str (s : String) : JSValue
  | arr (elems : List JSValue) : JSValue
  | obj (fields : List (String × JSValue)) : JSValue

mutual

def JSValue.decEq : (a b : JSValue) → Decidable (a = b)
  | .null, .null => .isTrue rfl
  | .bool a, .bool b =>
      if h : a = b then .isTrue (by rw [h]) else .isFalse (fun hh => h (JSValue.bool.inj hh))
  | .num a, .num b =>
      if h : a = b then .isTrue (by rw [h]) else .isFalse (fun hh => h (JSValue.num.inj hh))
  | .str a, .str b =>
      if h : a = b then .isTrue (by rw [h]) else .isFalse (fun hh => h (JSValue.str.inj hh))
  | .arr a, .arr b =>
      match JSValue.decEqList a b with
      | .isTrue h => .isTrue (by rw [h])
      | .isFalse h => .isFalse (fun hh => h (JSValue.arr.inj hh))
  | .obj a, .obj b =>
      match JSValue.decEqFields a b with
      | .isTrue h => .isTrue (by rw [h])
      | .isFalse h => .isFalse (fun hh => h (JSValue.obj.inj hh))
  | .null, .bool _ => .isFalse (fun h => JSValue.noConfusion h)
  | .null, .num _ => .isFalse (fun h => JSValue.noConfusion h)
  | .null, .str _ => .isFalse (fun h => JSValue.noConfusion h)
  | .null, .arr _ => .isFalse (fun h => JSValue.noConfusion h)
  | .null, .obj _ => .isFalse (fun h => JSValue.noConfusion h)
  | .bool _, .null => .isFalse (fun h => JSValue.noConfusion h)
  | .bool _, .num _ => .isFalse (fun h => JSValue.noConfusion h)
  | .bool _, .str _ => .isFalse (fun h => JSValue.noConfusion h)
  | .bool _, .arr _ => .isFalse (fun h => JSValue.noConfusion h)
  | .bool _, .obj _ => .isFalse (fun h => JSValue.noConfusion h)
  | .num _, .null => .isFalse (fun h => JSValue.noConfusion h)
  | .num _, .bool _ => .isFalse (fun h => JSValue.noConfusion h)
  | .num _, .str _ => .isFalse (fun h => JSValue.noConfusion h)
  | .num _, .arr _ => .isFalse (fun h => JSValue.noConfusion h)
  | .num _, .obj _ => .isFalse (fun h => JSValue.noConfusion h)
  | .str _, .null => .isFalse (fun h => JSValue.noConfusion h)
  | .str _, .bool _ => .isFalse (fun h => JSValue.noConfusion h)
  | .str _, .num _ => .isFalse (fun h => JSValue.noConfusion h)
  | .str _, .arr _ => .isFalse (fun h => JSValue.noConfusion h)
  | .str _, .obj _ => .isFalse (fun h => JSValue.noConfusion h)
  | .arr _, .null => .isFalse (fun h => JSValue.noConfusion h)
  | .arr _, .bool _ => .isFalse (fun h => JSValue.noConfusion h)
  | .arr _, .num _ => .isFalse (fun h => JSValue.noConfusion h)
  | .arr _, .str _ => .isFalse (fun h => JSValue.noConfusion h)
  | .arr _, .obj _ => .isFalse (fun h => JSValue.noConfusion h)
  | .obj _, .null => .isFalse (fun h => JSValue.noConfusion h)
  | .obj _, .bool _ => .isFalse (fun h => JSValue.noConfusion h)
  | .obj _, .num _ => .isFalse (fun h => JSValue.noConfusion h)
  | .obj _, .str _ => .isFalse (fun h => JSValue.noConfusion h)
  | .obj _, .arr _ => .isFalse (fun h => JSValue.noConfusion h)

def JSValue.decEqList : (a b : List JSValue) → Decidable (a = b)
  | [], [] => .isTrue rfl
  | [], _ :: _ => .isFalse (fun h => List.noConfusion h)
  | _ :: _, [] => .isFalse (fun h => List.noConfusion h)
  | a :: as, b :: bs =>
      match JSValue.decEq a b with
      | .isFalse h => .isFalse (fun hh => by injection hh with h1 h2; exact h h1)
      | .isTrue h1 =>
          match JSValue.decEqList as bs with
          | .isTrue h2 => .isTrue (by rw [h1, h2])
          | .isFalse h => .isFalse (fun hh => by injection hh with h1' h2'; exact h h2')

def JSValue.decEqFields : (a b : List (String × JSValue)) → Decidable (a = b)
  | [], [] => .isTrue rfl
  | [], _ :: _ => .isFalse (fun h => List.noConfusion h)
  | _ :: _, [] => .isFalse (fun h => List.noConfusion h)
  | (ka, va) :: as, (kb, vb) :: bs =>
      if hk : ka = kb then
        match JSValue.decEq va vb with
        | .isFalse h =>
            .isFalse (fun hh => by
              injection hh with h1 h2
              exact h (congrArg Prod.snd h1))
        | .isTrue hv =>
            match JSValue.decEqFields as bs with
            | .isTrue ht => .isTrue (by rw [hk, hv, ht])
            | .isFalse h => .isFalse (fun hh => by injection hh with h1 h2; exact h h2)
      else
        .isFalse (fun hh => by
          injection hh with h1 h2
          exact hk (congrArg Prod.fst h1))

end

instance : DecidableEq JSValue := JSValue.decEq

/-- Numeric value of a hexadecimal digit, for `\uXXXX` escapes. -/
def hexVal (c : Char) : Option ℕ :=
  if '0' ≤ c ∧ c ≤ '9' then some (c.toNat - 48)
  else if 'a' ≤ c ∧ c ≤ 'f' then some (c.toNat - 87)
  else if 'A' ≤ c ∧ c ≤ 'F' then some (c.toNat - 55)
  else none

/-- Single-character JSON string escapes. -/
def escChar (c : Char) : Option Char :=
  if c = '\"' then some '\"'
  else if c = '\\' then some '\\'
  else if c = '/' then some '/'
  else if c = 'b' then some (Char.ofNat 8)
  else if c = 'f' then some (Char.ofNat 12)
  else if c = 'n' then some '\n'
  else if c = 'r' then some '\r'
  else if c = 't' then some '\t'
  else none

/-- Body of a JSON string, after the opening quote: returns the decoded
characters and the remainder after the closing quote.  Raw control characters
are rejected, as by `JSON.parse`. -/
def parseStrAux : List Char → List Char → Option (List Char × List Char)
  | _, [] => none
  | acc, c :: rest =>
    if c = '\"' then some (acc.reverse, rest)
    else if c = '\\' then
      match rest with
      | [] => none
      | e :: r2 =>
        if e = 'u' then
          match r2 with
          | h1 :: h2 :: h3 :: h4 :: r3 =>
            match hexVal h1, hexVal h2, hexVal h3, hexVal h4 with
            | some a, some b, some c4, some d =>
                parseStrAux (Char.ofNat (((a * 16 + b) * 16 + c4) * 16 + d) :: acc) r3
            | _, _, _, _ => none
          | _ => none
        else
          match escChar e with
          | some ec => parseStrAux (ec :: acc) r2
          | none => none
    else if c.toNat < 32 then none
    else parseStrAux (c :: acc) rest

def isDigitCh (c : Char) : Bool := '0' ≤ c && c ≤ '9'

def digitsToNat (ds : List Char) : ℕ := ds.foldl (fun a c => 10 * a + (c.toNat - 48)) 0

/-- Exact rational value of a JSON number from its parts: sign, integer digits,
fraction digits, exponent sign and exponent digits. -/
def jsonNumVal (neg : Bool) (intDs fracDs : List Char) (negE : Bool) (expDs : List Char) : JQ :=
  let m : ℤ := (digitsToNat (intDs ++ fracDs) : ℤ)
  let e : ℤ := (if negE then -(digitsToNat expDs : ℤ) else (digitsToNat expDs : ℤ)) -
    (fracDs.length : ℤ)
  let sm : ℤ := if neg then -m else m
  if 0 ≤ e then JQ.ofInt (sm * (10 : ℤ) ^ e.toNat) else JQ.normalize sm ((10 : ℕ) ^ (-e).toNat)

/-- Exponent part of a JSON number, after the `e`/`E`:
optional sign then at least one digit. -/
def parseExp (cs : List Char) : Option (Bool × List Char × List Char) :=
  let (negE, r) := match cs with
    | '+' :: r => (false, r)
    | '-' :: r => (true, r)
    | _ => (false, cs)
  let ds := r.takeWhile isDigitCh
  if ds = [] then none else some (negE, ds, r.drop ds.length)

def finishNum (neg : Bool) (intDs fracDs cs3 : List Char) : Option (JQ × List Char) :=
  match cs3 with
  | 'e' :: r | 'E' :: r =>
    match parseExp r with
    | none => none
    | some (negE, ds, rest) => some (jsonNumVal neg intDs fracDs negE ds, rest)
  | _ => some (jsonNumVal neg intDs fracDs false [], cs3)

/-- JSON number grammar: `-? (0 | [1-9][0-9]*) (\.[0-9]+)? ([eE][+-]?[0-9]+)?`. -/
def parseNumber (cs : List Char) : Option (JQ × List Char) :=
  let (neg, cs1) := match cs with
    | '-' :: r => (true, r)
    | _ => (false, cs)
  let intDs := cs1.takeWhile isDigitCh
  if intDs = [] then none
  else if 1 < intDs.length ∧ intDs.head? = some '0' then none
  else
    let cs2 := cs1.drop intDs.length
    match cs2 with
    | '.' :: r =>
      let fracDs := r.takeWhile isDigitCh
      if fracDs = [] then none
      else finishNum neg intDs fracDs (r.drop fracDs.length)
    | _ => finishNum neg intDs [] cs2

mutual

/-- Fuelled recursive-descent parser for one JSON value (after optional leading
whitespace); returns the value and the unconsumed remainder. -/
def parseValue : ℕ → List Char → Option (JSValue × List Char)
  | 0, _ => none
  | fuel + 1, cs =>
    match cs.dropWhile isJsonWs with
    | 't' :: 'r' :: 'u' :: 'e' :: r => some (.bool true, r)
    | 'f' :: 'a' :: 'l' :: 's' :: 'e' :: r => some (.bool false, r)
    | 'n' :: 'u' :: 'l' :: 'l' :: r => some (.null, r)
    | '\"' :: r =>
        match parseStrAux [] r with
        | some (chars, rest) => some (.str (String.mk chars), rest)
        | none => none
    | '[' :: r =>
        match r.dropWhile isJsonWs with
        | ']' :: r2 => some (.arr [], r2)
        | _ =>
          match parseElems fuel r with
          | some (xs, rest) => some (.arr xs, rest)
          | none => none
    | c :: r =>
        if c = Char.ofNat 123 then
          match r.dropWhile isJsonWs with
          | c2 :: r2 =>
            if c2 = Char.ofNat 125 then some (.obj [], r2)
            else
              match parseMembers fuel r with
              | some (fs, rest) => some (.obj fs, rest)
              | none => none
          | [] => none
        else
          match parseNumber (c :: r) with
          | some (q, rest) => some (.num q, rest)
          | none => none
    | [] => none

/-- One or more array elements, each followed by `,` (continue) or `]` (stop). -/
def parseElems : ℕ → List Char → Option (List JSValue × List Char)
  | 0, _ => none
  | fuel + 1, cs =>
    match parseValue fuel cs with
    | none => none
    | some (v, rest) =>
      match rest.dropWhile isJsonWs with
      | ',' :: r2 =>
          match parseElems fuel r2 with
          | some (xs, rest2) => some (v :: xs, rest2)
          | none => none
      | ']' :: r2 => some ([v], r2)
      | _ => none

/-- One or more object members, each followed by `,` (continue) or a closing
brace (stop). -/
def parseMembers : ℕ → List Char → Option (List (String × JSValue) × List Char)
  | 0, _ => none
  | fuel + 1, cs =>
    match cs.dropWhile isJsonWs with
    | '\"' :: r =>
      match parseStrAux [] r with
      | none => none
      | some (kcs, r2) =>
        match r2.dropWhile isJsonWs with
        | ':' :: r3 =>
          match parseValue fuel r3 with
          | none => none
          | some (v, r4) =>
            match r4.dropWhile isJsonWs with
            | ',' :: r5 =>
                match parseMembers fuel r5 with
                | some (fs, rest) => some ((String.mk kcs, v) :: fs, rest)
                | none => none
            | c :: r5 => if c = Char.ofNat 125 then some ([(String.mk kcs, v)], r5) else none
            | [] => none
        | _ => none
    | _ => none

end

/-- The embedding of `JSON.parse`: parse one value, allow trailing whitespace,
reject any other trailing content.  The fuel `length + 1` dominates the number
of recursive entries, each of which consumes input. -/
def jsonParse (cs : List Char) : Option JSValue :=
  match parseValue (cs.length + 1) cs with
  | some (v, rest) => if rest.dropWhile isJsonWs = [] then some v else none
  | none => none

/-- Index of the first occurrence of `c` in `cs`. -/
def firstIdxOf : List Char → Char → Option ℕ
  | [], _ => none
  | x :: xs, c => if x = c then some 0 else (firstIdxOf xs c).map (· + 1)

/-- Index of the last occurrence of `c` in `cs`. -/
def lastIdxOf (cs : List Char) (c : Char) : Option ℕ :=
  (firstIdxOf cs.reverse c).map (fun i => cs.length - 1 - i)

/-- The inclusive span `cs[i..j]`. -/
def sliceIncl (cs : List Char) (i j : ℕ) : List Char := (cs.drop i).take (j + 1 - i)

/-- Leftmost-greedy match of the source pattern `/\x7b[\s\S]*\x7d/` (first open
brace through last close brace, provided the close brace comes later).  The
regex engine tries start positions left to right — the first open brace — and
the greedy `[\s\S]*` extends to the last close brace in the text. -/
def braceSpan (cs : List Char) : Option (List Char) :=
  match firstIdxOf cs (Char.ofNat 123), lastIdxOf cs (Char.ofNat 125) with
  | some i, some j => if i < j then some (sliceIncl cs i j) else none
  | _, _ => none

/-- Leftmost-greedy match of the source pattern `/\[[\s\S]*\]/`. -/
def bracketSpan (cs : List Char) : Option (List Char) :=
  match firstIdxOf cs '[', lastIdxOf cs ']' with
  | some i, some j => if i < j then some (sliceIncl cs i j) else none
  | _, _ => none

/-- Index of the first occurrence of `pat` as a contiguous block of `cs`. -/
def findSub : List Char → List Char → Option ℕ
  | [], pat => if pat = [] then some 0 else none
  | c :: rest, pat =>
    if pat.isPrefixOf (c :: rest) then some 0 else (findSub rest pat).map (· + 1)

/-- Candidate produced by the source pattern ```/```json\s*([\s\S]*?\s*)```/```:
the lazily captured text between the first ` ```json ` fence and the next
` ``` ` fence; with an empty capture `match[1] || match[0]` falls back to the
whole match.  (The greedy `\s*` between the fence and the capture only shifts
whitespace that the subsequent cleaning trims away.) -/
def fenceJsonCand (cs : List Char) : Option (List Char) :=
  match findSub cs ("```json".toList) with
  | none => none
  | some p =>
    let rest := cs.drop (p + 7)
    match findSub rest ("```".toList) with
    | none => none
    | some q =>
      let cap := rest.take q
      if cap = [] then some (sliceIncl cs p (p + 7 + q + 2)) else some cap

/-- Candidate produced by the source pattern ```/```\s*([\s\S]*?\s*)```/```. -/
def fenceAnyCand (cs : List Char) : Option (List Char) :=
  match findSub cs ("```".toList) with
  | none => none
  | some p =>
    let rest := cs.drop (p + 3)
    match findSub rest ("```".toList) with
    | none => none
    | some q =>
      let cap := rest.take q
      if cap = [] then some (sliceIncl cs p (p + 3 + q + 2)) else some cap

/-- `String.prototype.trim` on character lists. -/
def trimChars (cs : List Char) : List Char :=
  ((cs.dropWhile isJsWs).reverse.dropWhile isJsWs).reverse

/-- The cleanup step `.replace(/^\s*```json\s*/, '')`. -/
def stripLeadJsonFence (cs : List Char) : List Char :=
  let t := cs.dropWhile isJsWs
  if ("```json".toList).isPrefixOf t then (t.drop 7).dropWhile isJsWs else cs

/-- The cleanup step `.replace(/\s*```\s*$/, '')`. -/
def stripTrailFence (cs : List Char) : List Char :=
  let r := cs.reverse.dropWhile isJsWs
  if ("```".toList.reverse).isPrefixOf r then ((r.drop 3).dropWhile isJsWs).reverse else cs

/-- The cleanup applied to each matched candidate before `JSON.parse`:
strip a leading ` ```json ` fence, a trailing ` ``` ` fence, then trim. -/
def cleanCandidate (cs : List Char) : List Char :=
  trimChars (stripTrailFence (stripLeadJsonFence cs))

/-- The candidate spans of the four extraction patterns of `extractAndParseJSON`
(`AIContext.tsx` lines 117-122), in source order; patterns that do not match
contribute nothing. -/
def candidateSpans (cs : List Char) : List (List Char) :=
  [braceSpan cs, bracketSpan cs, fenceJsonCand cs, fenceAnyCand cs].filterMap id

/-- Try `JSON.parse` on each cleaned candidate, returning the first success. -/
def firstParse : List (List Char) → Option JSValue
  | [] => none
  | c :: rest =>
    match jsonParse (cleanCandidate c) with
    | some v => some v
    | none => firstParse rest

instance {ε α : Type} [DecidableEq ε] [DecidableEq α] : DecidableEq (Except ε α) := fun a b =>
  match a, b with
  | .ok x, .ok y =>
      if h : x = y then .isTrue (by rw [h]) else .isFalse (fun hh => h (Except.ok.inj hh))
  | .error x, .error y =>
      if h : x = y then .isTrue (by rw [h]) else .isFalse (fun hh => h (Except.error.inj hh))
  | .ok _, .error _ => .isFalse (fun h => Except.noConfusion h)
  | .error _, .ok _ => .isFalse (fun h => Except.noConfusion h)

/-- Embedding of `extractAndParseJSON` (`AIContext.tsx` lines 114-145): try the
four patterns in order, clean and strictly parse each match, return the first
parse that succeeds; exhausting all patterns throws
`No valid JSON found in response`. -/
def extractAndParseJSON (text : String) : Except String JSValue :=
  match firstParse (candidateSpans text.toList) with
  | some v => .ok v
  | none => .error "No valid JSON found in response"

/-- Key lookup in parsed-object fields; with duplicate keys the last occurrence
wins, matching `JSON.parse`. -/
def lookupLast : List (String × JSValue) → String → Option JSValue
  | [], _ => none
  | (k, v) :: rest, key =>
    match lookupLast rest key with
    | some r => some r
    | none => if k = key then some v else none

/-- Property read `value[key]` for the values at issue (non-objects have no
named string properties that this program ever reads). -/
def getKey (v : JSValue) (key : String) : Option JSValue :=
  match v with
  | .obj fs => lookupLast fs key
  | _ => none

/-- `key in value`: key-presence test as exercised by the validators (the keys
queried are never array indices nor `length`, so arrays report false). -/
def hasKey (v : JSValue) (key : String) : Bool := (getKey v key).isSome

/-- JavaScript truthiness of a parsed value. -/
def isTruthy : JSValue → Bool
  | .null => false
  | .bool b => b
  | .num q => q.truthy
  | .str s => !(s = "")
  | .arr _ => true
  | .obj _ => true

/-- `typeof value === 'object'` for parsed values (true for null, arrays and
objects; the null case is unreachable behind the source's truthiness guard). -/
def isTypeofObject : JSValue → Bool
  | .null => true
  | .arr _ => true
  | .obj _ => true
  | _ => false

def validScores : List String := ["A++", "A+", "A", "B", "C"]

/-- Embedding of `validateCriticResponse` (`AIContext.tsx` lines 147-203):
truthy object; has `ratings`/`feedback`/`overallScore`; `ratings` a non-empty
array of finite numbers in [0,100] (numbers here are always finite, and NaN
never parses from JSON; the range test is false on NaN as in JavaScript);
`feedback` a string non-empty after trim; `overallScore` in the 5-grade list. -/
def validateCriticResponse (response : JSValue) : Bool :=
  if !(isTruthy response) || !(isTypeofObject response) then false
  else if !(hasKey response "ratings" && hasKey response "feedback" &&
      hasKey response "overallScore") then false
  else
    let hasValidRatings :=
      match getKey response "ratings" with
      | some (.arr rs) =>
          decide (0 < rs.length) && rs.all (fun r =>
            match r with
            | .num q => !(q.den = 0) && JQ.le 0 q && JQ.le q 100
            | _ => false)
      | _ => false
    if !hasValidRatings then false
    else
      let hasValidFeedback :=
        match getKey response "feedback" with
        | some (.str s) => decide (0 < (trimChars s.toList).length)
        | _ => false
      if !hasValidFeedback then false
      else
        match getKey response "overallScore" with
        | some (.str s) => validScores.contains s
        | _ => false

/-- The grade table of `BadAIContext copy.tsx` line 778:
`scoreRank = `(open brace)`'A++': 5, 'A+': 4, 'A': 3, 'B': 2, 'C': 1`(close
brace).  Indexing with any other string yields undefined, under which both
source comparisons are false; both operands are always validated grades, so the
default 0 is unreachable there. -/
def scoreRank (s : String) : ℕ :=
  if s = "A++" then 5 else if s = "A+" then 4 else if s = "A" then 3
  else if s = "B" then 2 else if s = "C" then 1 else 0

/-- The spread `...value` inside an object literal: objects contribute their
fields, arrays and strings contribute index-keyed elements, primitives nothing. -/
def spreadFields : JSValue → List (String × JSValue)
  | .obj fs => fs
  | .arr xs => xs.enum.map (fun p => (toString p.1, p.2))
  | .str s => s.toList.enum.map (fun p => (toString p.1, JSValue.str (String.mk [p.2])))
  | _ => []

/-- Setting one property of an object literal: overwrite in place when the key
exists, else append (JavaScript preserves first-insertion order). -/
def setKey (fields : List (String × JSValue)) (key : String) (v : JSValue) :
    List (String × JSValue) :=
  if fields.any (fun p => p.1 = key) then
    fields.map (fun p => if p.1 = key then (key, v) else p)
  else fields ++ [(key, v)]

/-- Spreading `v` over already-set properties of an object literal. -/
def spreadOver (base : List (String × JSValue)) (v : JSValue) : List (String × JSValue) :=
  (spreadFields v).foldl (fun acc p => setKey acc p.1 p.2) base

/-- `ratings[index] || 0`: out-of-range indexing gives undefined hence 0; a
falsy number (0; NaN never parses from JSON) also gives 0.  Post-validation the
element is always a number. -/
def ratingAt (rs : List JSValue) (i : ℕ) : JQ :=
  match rs.get? i with
  | some (.num q) => if q.truthy then q else 0
  | _ => 0

/-- The merge `(open brace)...idea, rating: r(close brace)`. -/
def mergeRating (idea : JSValue) (r : JQ) : JSValue :=
  .obj (setKey (spreadOver [] idea) "rating" (.num r))

/-- `ideas.map((idea, index) => (...idea, rating: ratings[index] || 0))` —
the rating merge applied after each critique. -/
def mergeIdeas (ideas rs : List JSValue) : List JSValue :=
  ideas.enum.map (fun p => mergeRating p.2 (ratingAt rs p.1))

/-- The loop's idea preparation `(open brace)id: ..., ...idea, rating: 0(close
brace)` (`AIContext.tsx` lines 393-397). -/
def loopIdeaInit (idStr : String) (idea : JSValue) : JSValue :=
  .obj (setKey (spreadOver [("id", .str idStr)] idea) "rating" (.num 0))

/-- `ratings.reduce((a, b) => a + b, 0) / ratings.length`; the empty case is
`0 / 0 = NaN` as in JavaScript.  Post-validation every element is a number. -/
def avgRatings (rs : List JSValue) : JQ :=
  (rs.foldl (fun a r => JQ.add a (match r with | .num q => q | _ => 0)) 0).div
    (JQ.ofInt (rs.length : ℤ))

/-- `criticism.feedback` read as a string (always a string post-validation). -/
def feedbackOf (c : JSValue) : String :=
  match getKey c "feedback" with
  | some (.str s) => s
  | _ => ""

/-- `criticism.overallScore` read as a string (always a string post-validation). -/
def scoreOf (c : JSValue) : String :=
  match getKey c "overallScore" with
  | some (.str s) => s
  | _ => ""

/-- `criticism.ratings` read as an array (always an array post-validation). -/
def ratingsOf (c : JSValue) : List JSValue :=
  match getKey c "ratings" with
  | some (.arr rs) => rs
  | _ => []

/-- `idea.rating < bound` on a merged idea: comparing undefined or a non-number
is false in JavaScript; merged ideas always carry a numeric `rating`. -/
def ideaRatingLt (idea : JSValue) (bound : JQ) : Bool :=
  match getKey idea "rating" with
  | some (.num q) => JQ.lt q bound
  | _ => false

/-- One stored iteration (`IterationData` of `src/src/types.ts`): the ideas as
pushed (raw on the first iteration, id-tagged with rating 0 on later ones),
the critique feedback, grade and ratings. -/
structure IterationData where
  ideas : List JSValue
  feedback : String
  score : String
  ratings : List JSValue
deriving DecidableEq

/-- The final result (`Conversation` of `src/src/types.ts`), omitting the two
`Date.now()` fields `id` and `timestamp`, which no claim concerns. -/
structure Conversation where
  prompt : String
  enhancedPrompt : String
  ideas : List JSValue
  feedback : String
  iteration : ℕ
  firstIterationResponse : String
  firstIterationFeedback : String
  bestScore : String
  improvementThresholdMet : Bool
  iterationHistory : List IterationData
deriving DecidableEq

/-- The externally observable provider state: `isLoading`, `conversation`,
`error`. -/
structure AIState where
  isLoading : Bool
  conversation : Option Conversation
  error : Option String
deriving DecidableEq

/-- One `sendMessage`/`response.text()` round trip against the oracle: an
`error` entry throws with that message; an exhausted oracle is also modelled as
a throw (real providers always answer or throw, this keeps the model total). -/
def takeResp : List (Except String String) → Except String (String × List (Except String String))
  | [] => .error "No response from model"
  | .ok s :: rest => .ok (s, rest)
  | .error e :: _ => .error e

def MAX_ITERATIONS : ℕ := 5

/-- `0.05`; 5% improvement needed to continue iterations. -/
def IMPROVEMENT_THRESHOLD : JQ := ⟨1, 20⟩

def MIN_ITERATIONS : ℕ := 2

/-- The mutable loop state of `generateIdeas` (`AIContext.tsx` lines 261-270),
plus the unconsumed oracle. -/
structure LoopState where
  currentPrompt : String
  iteration : ℕ
  bestScore : String
  finalIdeas : List JSValue
  finalFeedback : String
  lastIterationScore : JQ
  improvementThresholdMet : Bool
  iterationHistory : List IterationData
  oracle : List (Except String String)
deriving DecidableEq

/-- The guard of the refinement `while` loop (`AIContext.tsx` line 362):
`iteration < MAX_ITERATIONS && (iteration < MIN_ITERATIONS ||
finalIdeas.some(idea => idea.rating < 90))`. -/
def loopGuard (ls : LoopState) : Bool :=
  decide (ls.iteration < MAX_ITERATIONS) &&
    (decide (ls.iteration < MIN_ITERATIONS) ||
      ls.finalIdeas.any (fun i => ideaRatingLt i (JQ.ofInt 90)))

/-- One pass of the refinement loop (`AIContext.tsx` lines 363-461): feedback
generation call, parse to an array, id-tag with rating 0, critique call, parse
and validate, record the iteration, update averages, the improvement flag, the
rating-merged ideas, the always-overwritten best score and feedback, increment
the counter and extend the prompt with the feedback. -/
def loopBody (enhancedPrompt : String) (ls : LoopState) : Except String LoopState :=
  match takeResp ls.oracle with
  | .error e => .error e
  | .ok (rawIdeasResponse, o1) =>
    match ((match extractAndParseJSON rawIdeasResponse with
           | .ok (.arr xs) => .ok xs
           | .ok _ => .error "Invalid ideas format: expected array"
           | .error e => .error e) : Except String (List JSValue)) with
    | .error e => .error ("Failed to parse ideas response: " ++ e)
    | .ok parsedIdeas =>
      let ideas0 := parsedIdeas.enum.map (fun p =>
        loopIdeaInit ("idea-" ++ toString p.1 ++ "-" ++ toString ls.iteration) p.2)
      match takeResp o1 with
      | .error e => .error e
      | .ok (rawFeedbackResponse, o2) =>
        match ((match extractAndParseJSON rawFeedbackResponse with
               | .ok c =>
                   if validateCriticResponse c then .ok c
                   else .error "Invalid criticism format"
               | .error e => .error e) : Except String JSValue) with
        | .error e => .error ("Failed to parse feedback response: " ++ e)
        | .ok criticism =>
          let currentScore := avgRatings (ratingsOf criticism)
          let improvement :=
            if JQ.truthy ls.lastIterationScore then
              JQ.div (JQ.sub currentScore ls.lastIterationScore) ls.lastIterationScore
            else JQ.ofInt 0
          .ok
            { currentPrompt :=
                enhancedPrompt ++ "\n\nPrevious iteration feedback: " ++ feedbackOf criticism,
              iteration := ls.iteration + 1,
              bestScore := scoreOf criticism,
              finalIdeas := mergeIdeas ideas0 (ratingsOf criticism),
              finalFeedback := feedbackOf criticism,
              lastIterationScore := currentScore,
              improvementThresholdMet := JQ.le IMPROVEMENT_THRESHOLD improvement,
              iterationHistory := ls.iterationHistory ++
                [⟨ideas0, feedbackOf criticism, scoreOf criticism, ratingsOf criticism⟩],
              oracle := o2 }

/-- The refinement `while` loop of `generateIdeas` (`AIContext.tsx` lines
362-462), fuelled: the caller passes `MAX_ITERATIONS`, and since the guard
requires `iteration < MAX_ITERATIONS` while each pass increments `iteration`,
fuel `MAX_ITERATIONS` is never exhausted from the initial `iteration = 1`
(the fuel-zero branch is unreachable there). -/
def iterLoop : ℕ → String → LoopState → Except String LoopState
  | 0, _, ls => .ok ls
  | fuel + 1, enhancedPrompt, ls =>
    if loopGuard ls then
      match loopBody enhancedPrompt ls with
      | .error e => .error e
      | .ok ls2 => iterLoop fuel enhancedPrompt ls2
    else .ok ls

/-- The body of `generateIdeas` past the input guards (`AIContext.tsx` lines
260-477): enhancement, initial generation, initial critique, then the
refinement loop, assembling the final `Conversation` on success and throwing
the source's error message on each failure path. -/
def runBody (oracle : List (Except String String)) (prompt : String) :
    Except String Conversation :=
  match takeResp oracle with
  | .error e => .error e
  | .ok (enhancedPrompt, o1) =>
    if enhancedPrompt = "" then .error "Failed to enhance the prompt. Please try again."
    else
      match takeResp o1 with
      | .error e => .error e
      | .ok (firstIterationResponse, o2) =>
        match extractAndParseJSON firstIterationResponse with
        | .ok (.arr initialIdeas) =>
          (match takeResp o2 with
           | .error e => .error e
           | .ok (firstIterationFeedback, o3) =>
             match ((match extractAndParseJSON firstIterationFeedback with
                    | .ok c =>
                        if validateCriticResponse c then .ok c
                        else .error "Invalid initial criticism format"
                    | .error e => .error e) : Except String JSValue) with
             | .error e => .error ("Failed to parse initial feedback response: " ++ e)
             | .ok initialCriticism =>
               match iterLoop MAX_ITERATIONS enhancedPrompt
                 { currentPrompt := enhancedPrompt,
                   iteration := 1,
                   bestScore := scoreOf initialCriticism,
                   finalIdeas := mergeIdeas initialIdeas (ratingsOf initialCriticism),
                   finalFeedback := feedbackOf initialCriticism,
                   lastIterationScore := avgRatings (ratingsOf initialCriticism),
                   improvementThresholdMet := true,
                   iterationHistory := [⟨initialIdeas, feedbackOf initialCriticism,
                     scoreOf initialCriticism, ratingsOf initialCriticism⟩],
                   oracle := o3 } with
               | .error e => .error e
               | .ok ls =>
                 .ok { prompt := prompt,
                       enhancedPrompt := ls.currentPrompt,
                       ideas := ls.finalIdeas,
                       feedback := ls.finalFeedback,
                       iteration := ls.iteration,
                       firstIterationResponse := firstIterationResponse,
                       firstIterationFeedback := firstIterationFeedback,
                       bestScore := ls.bestScore,
                       improvementThresholdMet := ls.improvementThresholdMet,
                       iterationHistory := ls.iterationHistory })
        | .ok _ => .error "Failed to parse ideas from AI. Please try again."
        | .error _ => .error "Failed to parse ideas from AI. Please try again."

/-- Embedding of `generateIdeas` (`AIContext.tsx` lines 241-486) as a state
transformer on the observable provider state: the empty-prompt and
uninitialized-API guards return before touching the loading flag or the oracle;
otherwise the run executes, on success replacing `conversation` (with `error`
cleared), on failure keeping the previous `conversation` and surfacing the
thrown message, with `isLoading` reset by the `finally`. -/
def generateIdeas (genAIReady : Bool) (oracle : List (Except String String))
    (prompt : String) (st : AIState) : AIState :=
  if trimChars prompt.toList = [] then { st with error := some "Please enter a prompt" }
  else if !genAIReady then { st with error := some "API not initialized. Please try again later." }
  else
    match runBody oracle prompt with
    | .ok conv => { isLoading := false, conversation := some conv, error := none }
    | .error e => { isLoading := false, conversation := st.conversation, error := some e }

/-- Modelled from the spec (§4.4): `isBetter(a, b)` holds iff
`rank(a.overallScore) > rank(b.overallScore)`, or the ranks are equal and
`average(a.ratings) > average(b.ratings)`.  No source variant implements this
tie-breaking comparison; it is stated here only to compare the specified
best-iteration policy against what the code computes. -/
def isBetterSpec (a b : IterationData) : Bool :=
  decide (scoreRank b.score < scoreRank a.score) ||
    (decide (scoreRank a.score = scoreRank b.score) &&
      JQ.lt (avgRatings b.ratings) (avgRatings a.ratings))

/-- The creative-direction sampler (`BadAIContext copy.tsx` lines 248-250):
`[...creativeDirections].sort(() => 0.5 - Math.random()).slice(0, 5)`.  The
randomized inconsistent-comparator sort is modelled by its outcome `sorted`, a
permutation of the catalog (ECMAScript leaves the order under an inconsistent
comparator implementation-defined, so no distribution is ascribed to it); the
`slice` keeps the first five entries.  Executed once per run, before the loop. -/
def sampleDirections (sorted : List String) : List String := sorted.take 5

/-- Embedding of the Bad variant's `validateCriticResponse`
(`BadAIContext copy.tsx` lines 185-196): truthy; has `ratings`, an array with
every element a number in [0,100] (emptiness is not checked); has `feedback`,
a string (emptiness is not checked); has `overallScore`, in the 5-grade list.
On a truthy non-object the source's `in` would throw a TypeError that the
run's catch-all turns into an error state; the claims never exercise that
corner and it is modelled as plain invalidity. -/
def validateCriticResponseBad (response : JSValue) : Bool :=
  isTruthy response &&
  hasKey response "ratings" &&
  (match getKey response "ratings" with
   | some (.arr rs) => rs.all (fun r =>
       match r with
       | .num q => JQ.le 0 q && JQ.le q 100
       | _ => false)
   | _ => false) &&
  hasKey response "feedback" &&
  (match getKey response "feedback" with
   | some (.str _) => true
   | _ => false) &&
  hasKey response "overallScore" &&
  (match getKey response "overallScore" with
   | some (.str s) => validScores.contains s
   | _ => false)

/-- Leftmost match of the Bad variant's first pattern `/\[.*\]|\x7b.*\x7d/s`:
at each start position the array alternative is tried before the object one,
so the alternative whose (first viable) start comes first wins; each extends
greedily to the last matching closer. -/
def badSpan (cs : List Char) : Option (List Char) :=
  let arrC := match firstIdxOf cs '[', lastIdxOf cs ']' with
    | some i, some j => if i < j then some (i, j) else none
    | _, _ => none
  let objC := match firstIdxOf cs (Char.ofNat 123), lastIdxOf cs (Char.ofNat 125) with
    | some i, some j => if i < j then some (i, j) else none
    | _, _ => none
  match arrC, objC with
  | some (i, j), some (i2, j2) =>
      if i ≤ i2 then some (sliceIncl cs i j) else some (sliceIncl cs i2 j2)
  | some (i, j), none => some (sliceIncl cs i j)
  | none, some (i, j) => some (sliceIncl cs i j)
  | none, none => none

/-- The Bad variant's cleanup `.replace(/```json|```/g, '')`: remove every
fence marker, ` ```json ` being tried first at each position. -/
def removeFencesAux : ℕ → List Char → List Char
  | 0, cs => cs
  | _ + 1, [] => []
  | fuel + 1, c :: rest =>
    if ("```json".toList).isPrefixOf (c :: rest) then removeFencesAux fuel ((c :: rest).drop 7)
    else if ("```".toList).isPrefixOf (c :: rest) then removeFencesAux fuel ((c :: rest).drop 3)
    else c :: removeFencesAux fuel rest

def removeFences (cs : List Char) : List Char := removeFencesAux cs.length cs

/-- First candidate that strictly parses, no further cleanup. -/
def firstParseRaw : List (List Char) → Option JSValue
  | [] => none
  | c :: rest =>
    match jsonParse c with
    | some v => some v
    | none => firstParseRaw rest

/-- Embedding of the Bad variant's `extractAndParseJSON`
(`BadAIContext copy.tsx` lines 169-183): the array-or-object alternation span,
then the two fence patterns (their captures differ from the live variant's only
in boundary whitespace, which the trim erases); each candidate is cleaned with
the global fence-marker removal and trim, and strictly parsed; exhaustion
throws `No valid JSON found`. -/
def extractAndParseJSONBad (text : String) : Except String JSValue :=
  let cs := text.toList
  let cands := [badSpan cs, fenceJsonCand cs, fenceAnyCand cs].filterMap id
  match firstParseRaw (cands.map (fun c => trimChars (removeFences c))) with
  | some v => .ok v
  | none => .error "No valid JSON found"

/-- The Bad variant's rating merge
`(open brace)...idea, rating: ratings[index] || 0, id: ...(close brace)`. -/
def badMergeIdea (idea : JSValue) (r : JQ) (idStr : String) : JSValue :=
  .obj (setKey (setKey (spreadOver [] idea) "rating" (.num r)) "id" (.str idStr))

def badMergeIdeas (ideas rs : List JSValue) (idOf : ℕ → String) : List JSValue :=
  ideas.enum.map (fun p => badMergeIdea p.2 (ratingAt rs p.1) (idOf p.1))

/-- The Bad variant's mutable loop state plus the selection trace: one
`dirTrace` entry per generator invocation, recording the creative-direction
selection embedded into that invocation's message. -/
structure BadLoopState where
  currentPrompt : String
  iteration : ℕ
  bestScore : String
  finalIdeas : List JSValue
  finalFeedback : String
  lastIterationScore : JQ
  improvementThresholdMet : Bool
  iterationHistory : List IterationData
  oracle : List (Except String String)
  dirTrace : List (List String)
deriving DecidableEq

/-- Guard of the Bad variant's loop (`BadAIContext copy.tsx` line 297):
`iteration < MAX_ITERATIONS && (iteration < MIN_ITERATIONS ||
improvementThresholdMet)`.  The iteration constants are taken as parameters:
the spec (§4.5, §9) requires them to be configuration, and the observed
variants fix different values — this file fixes the Bad variant's own values in
`badMaxIterations`/`badMinIterations`/`badImprovementThreshold` below. -/
def badLoopGuard (maxIt minIt : ℕ) (ls : BadLoopState) : Bool :=
  decide (ls.iteration < maxIt) &&
    (decide (ls.iteration < minIt) || ls.improvementThresholdMet)

/-- One pass of the Bad variant's loop (`BadAIContext copy.tsx` lines 298-350).
The `feedbackMessage` built at the top of the pass embeds
`selectedDirections.join('; ')` — the pass records that selection in
`dirTrace` rather than the full message text, which the oracle never reads. -/
def badLoopBody (thr : JQ) (sel : List String) (enhancedPrompt : String) (now : ℕ)
    (ls : BadLoopState) : Except String BadLoopState :=
  match takeResp ls.oracle with
  | .error e => .error e
  | .ok (rawIdeasResponse, o1) =>
    match extractAndParseJSONBad rawIdeasResponse with
    | .error e => .error e
    | .ok v =>
      match v with
      | .arr ideas =>
        match takeResp o1 with
        | .error e => .error e
        | .ok (rawFeedbackResponse, o2) =>
          match extractAndParseJSONBad rawFeedbackResponse with
          | .error e => .error e
          | .ok criticism =>
            if validateCriticResponseBad criticism then
              let currentAverage := avgRatings (ratingsOf criticism)
              let improvement :=
                if JQ.truthy ls.lastIterationScore then
                  JQ.div (JQ.sub currentAverage ls.lastIterationScore) ls.lastIterationScore
                else JQ.ofInt 0
              .ok
                { currentPrompt :=
                    enhancedPrompt ++ "\n\nPrevious iteration feedback: " ++ feedbackOf criticism,
                  iteration := ls.iteration + 1,
                  bestScore := scoreOf criticism,
                  finalIdeas := badMergeIdeas ideas (ratingsOf criticism) (fun i =>
                    "bad-idea-" ++ toString now ++ "-" ++ toString i ++ "-iter-" ++
                      toString ls.iteration),
                  finalFeedback := feedbackOf criticism,
                  lastIterationScore := currentAverage,
                  improvementThresholdMet := JQ.le thr improvement,
                  iterationHistory := ls.iterationHistory ++
                    [⟨ideas, feedbackOf criticism, scoreOf criticism, ratingsOf criticism⟩],
                  oracle := o2,
                  dirTrace := ls.dirTrace ++ [sel] }
            else .error "Invalid criticism format"
      | _ => .error "Invalid ideas format: expected array"

/-- The Bad variant's fuelled loop; the caller passes `maxIt` as fuel, which
the guard keeps from exhausting. -/
def badIterLoop : ℕ → ℕ → ℕ → JQ → List String → String → ℕ → BadLoopState →
    Except String BadLoopState
  | 0, _, _, _, _, _, _, ls => .ok ls
  | fuel + 1, maxIt, minIt, thr, sel, enhancedPrompt, now, ls =>
    if badLoopGuard maxIt minIt ls then
      match badLoopBody thr sel enhancedPrompt now ls with
      | .error e => .error e
      | .ok ls2 => badIterLoop fuel maxIt minIt thr sel enhancedPrompt now ls2
    else .ok ls

/-- The Bad variant's run body (`BadAIContext copy.tsx` lines 230-366):
enhancement, one per-run sampling of five creative directions, initial
generation (whose message embeds the selection — recorded as the first
`dirTrace` entry), initial critique, then the loop.  `Date.now()` in the
generated ids is modelled by the parameter `now`. -/
def badRunBody (maxIt minIt : ℕ) (thr : JQ) (sorted : List String) (now : ℕ)
    (oracle : List (Except String String)) (prompt : String) :
    Except String (Conversation × List (List String)) :=
  match takeResp oracle with
  | .error e => .error e
  | .ok (enhancedPrompt, o1) =>
    if enhancedPrompt = "" then .error "Failed to enhance the prompt"
    else
      let selectedDirections := sampleDirections sorted
      match takeResp o1 with
      | .error e => .error e
      | .ok (firstIterationResponse, o2) =>
        match extractAndParseJSONBad firstIterationResponse with
        | .error e => .error e
        | .ok v =>
          match v with
          | .arr initialIdeas =>
            match takeResp o2 with
            | .error e => .error e
            | .ok (firstIterationFeedback, o3) =>
              match extractAndParseJSONBad firstIterationFeedback with
              | .error e => .error e
              | .ok initialCriticism =>
                if validateCriticResponseBad initialCriticism then
                  match badIterLoop maxIt maxIt minIt thr selectedDirections enhancedPrompt now
                    { currentPrompt := enhancedPrompt,
                      iteration := 1,
                      bestScore := scoreOf initialCriticism,
                      finalIdeas := badMergeIdeas initialIdeas (ratingsOf initialCriticism)
                        (fun i => "bad-idea-" ++ toString now ++ "-" ++ toString i),
                      finalFeedback := feedbackOf initialCriticism,
                      lastIterationScore := avgRatings (ratingsOf initialCriticism),
                      improvementThresholdMet := true,
                      iterationHistory := [⟨initialIdeas, feedbackOf initialCriticism,
                        scoreOf initialCriticism, ratingsOf initialCriticism⟩],
                      oracle := o3,
                      dirTrace := [selectedDirections] } with
                  | .error e => .error e
                  | .ok ls =>
                    .ok ({ prompt := prompt,
                           enhancedPrompt := ls.currentPrompt,
                           ideas := ls.finalIdeas,
                           feedback := ls.finalFeedback,
                           iteration := ls.iteration,
                           firstIterationResponse := firstIterationResponse,
                           firstIterationFeedback := firstIterationFeedback,
                           bestScore := ls.bestScore,
                           improvementThresholdMet := ls.improvementThresholdMet,
                           iterationHistory := ls.iterationHistory }, ls.dirTrace)
                else .error "Invalid initial criticism format"
          | _ => .error "Invalid response format from idea generator"

/-- Embedding of the Bad variant's `generateIdeas` (`BadAIContext copy.tsx`
lines 218-369), returning the final observable state and the per-generator-call
direction-selection trace (empty when no result was produced). -/
def badGenerateIdeas (maxIt minIt : ℕ) (thr : JQ) (sorted : List String) (now : ℕ)
    (genAIReady : Bool) (oracle : List (Except String String)) (prompt : String)
    (st : AIState) : AIState × List (List String) :=
  if trimChars prompt.toList = [] then ({ st with error := some "Please enter a prompt" }, [])
  else if !genAIReady then
    ({ st with error := some "API not initialized. Please try again later." }, [])
  else
    match badRunBody maxIt minIt thr sorted now oracle prompt with
    | .ok (conv, trace) => ({ isLoading := false, conversation := some conv, error := none }, trace)
    | .error e => ({ isLoading := false, conversation := st.conversation, error := some e }, [])

/-- `MAX_ITERATIONS = 1` of the Bad variant (`BadAIContext copy.tsx` line 111),
under which the refinement loop body is unreachable. -/
def badMaxIterations : ℕ := 1

/-- `MIN_ITERATIONS = 0` of the Bad variant (line 112). -/
def badMinIterations : ℕ := 0

/-- `IMPROVEMENT_THRESHOLD = 0.2` of the Bad variant (line 113). -/
def badImprovementThreshold : JQ := ⟨1, 5⟩

/-- Shape of the loop state right after the initial iteration, used by the
loop-invariant lemmas: counter 1, one history record, and the best
score/feedback/ideas aligned with the last (only) record. -/
def InitState (ls : LoopState) : Prop :=
  ls.iteration = 1 ∧ ls.iterationHistory.length = 1 ∧
    ∃ rec, ls.iterationHistory.getLast? = some rec ∧ ls.bestScore = rec.score ∧
      ls.finalFeedback = rec.feedback ∧ ls.finalIdeas = mergeIdeas rec.ideas rec.ratings

def emptyIteration : IterationData := ⟨[], "", "", []⟩

def emptyConversation : Conversation := ⟨"", "", [], "", 0, "", "", "", false, []⟩

/-- Oracle of a two-iteration run whose first critique grades `A++` with
average 95.5 and whose second grades `C` with ratings 90 and 91 (all at least
90, so the loop stops at the minimum of two iterations). -/
def c1oracle : List (Except String String) :=
  [.ok "Enhanced coffee prompt",
   .ok "[\x7b\"title\":\"a\",\"description\":\"b\"\x7d,\x7b\"title\":\"c\",\"description\":\"d\"\x7d]",
   .ok "\x7b\"ratings\":[95,96],\"feedback\":\"good\",\"overallScore\":\"A++\"\x7d",
   .ok "[\x7b\"title\":\"e\",\"description\":\"f\"\x7d,\x7b\"title\":\"g\",\"description\":\"h\"\x7d]",
   .ok "\x7b\"ratings\":[90,91],\"feedback\":\"meh\",\"overallScore\":\"C\"\x7d"]

def c1res : AIState := generateIdeas true c1oracle "coffee" ⟨false, none, none⟩

def c1conv : Conversation := c1res.conversation.getD emptyConversation

def c1last : IterationData := c1conv.iterationHistory.getLastD emptyIteration

/-- Oracle of a run whose second iteration improves the average from 50 to
95.5 (far above the 5% threshold) while rating every idea at least 90. -/
def c2oracle : List (Except String String) :=
  [.ok "Enhanced tea prompt",
   .ok "[\x7b\"title\":\"a\",\"description\":\"b\"\x7d,\x7b\"title\":\"c\",\"description\":\"d\"\x7d]",
   .ok "\x7b\"ratings\":[40,60],\"feedback\":\"weak\",\"overallScore\":\"B\"\x7d",
   .ok "[\x7b\"title\":\"e\",\"description\":\"f\"\x7d,\x7b\"title\":\"g\",\"description\":\"h\"\x7d]",
   .ok "\x7b\"ratings\":[95,96],\"feedback\":\"strong\",\"overallScore\":\"A\"\x7d"]

def c2res : AIState := generateIdeas true c2oracle "tea" ⟨false, none, none⟩

def c2conv : Conversation := c2res.conversation.getD emptyConversation

/-- Oracle of a successful run whose first critique carries a single rating
against two ideas (length mismatch). -/
def c5oracle : List (Except String String) :=
  [.ok "Enhanced pie prompt",
   .ok "[\x7b\"title\":\"a\",\"description\":\"b\"\x7d,\x7b\"title\":\"c\",\"description\":\"d\"\x7d]",
   .ok "\x7b\"ratings\":[50],\"feedback\":\"short\",\"overallScore\":\"B\"\x7d",
   .ok "[\x7b\"title\":\"e\",\"description\":\"f\"\x7d,\x7b\"title\":\"g\",\"description\":\"h\"\x7d]",
   .ok "\x7b\"ratings\":[95,96],\"feedback\":\"fine\",\"overallScore\":\"A\"\x7d"]

def c5res : AIState := generateIdeas true c5oracle "pie" ⟨false, none, none⟩

def c5conv : Conversation := c5res.conversation.getD emptyConversation

/-- The mismatched critique value of `c5oracle`, as parsed. -/
def c5crit : JSValue :=
  .obj [("ratings", .arr [.num 50]), ("feedback", .str "short"), ("overallScore", .str "B")]

/-- A previous successful result, for observing that failures keep it. -/
def prevConv : Conversation := ⟨"p", "e", [], "", 1, "", "", "C", true, []⟩

def c9sorted : List String := ["d1", "d2", "d3", "d4", "d5", "d6"]

def c9catalog : List String := ["d1", "d2", "d3", "d4", "d5", "d6"]

/-- Oracle of a Bad-variant run with improvement exactly at the 0.2 threshold,
so that the loop continues to a second generation whenever the maximum allows. -/
def c9oracle : List (Except String String) :=
  [.ok "Enhanced cake prompt",
   .ok "[\x7b\"title\":\"a\",\"description\":\"b\"\x7d]",
   .ok "\x7b\"ratings\":[50],\"feedback\":\"f1\",\"overallScore\":\"B\"\x7d",
   .ok "[\x7b\"title\":\"c\",\"description\":\"d\"\x7d]",
   .ok "\x7b\"ratings\":[60],\"feedback\":\"f2\",\"overallScore\":\"B\"\x7d"]

/-- A Bad-variant run under a configuration whose maximum allows a second
iteration (the shipped `badMaxIterations = 1` makes the loop body dead code;
the spec requires the bound to be configurable). -/
def c9run : AIState × List (List String) :=
  badGenerateIdeas 2 badMinIterations badImprovementThreshold c9sorted 7 true c9oracle "cake"
    ⟨false, none, none⟩

/-- The best-so-far fields agree with the last history record. -/
def LastAligned (ls : LoopState) : Prop :=
  ∃ rec, ls.iterationHistory.getLast? = some rec ∧ ls.bestScore = rec.score ∧
    ls.finalFeedback = rec.feedback ∧ ls.finalIdeas = mergeIdeas rec.ideas rec.ratings

theorem loopBody_ok_shape (ep : String) (ls ls2 : LoopState)
    (h : loopBody ep ls = .ok ls2) :
    ls2.iteration = ls.iteration + 1 ∧
      ∃ rec, ls2.iterationHistory = ls.iterationHistory ++ [rec] ∧
        ls2.bestScore = rec.score ∧ ls2.finalFeedback = rec.feedback ∧
        ls2.finalIdeas = mergeIdeas rec.ideas rec.ratings := by
  unfold loopBody at h
  repeat' split at h
  all_goals try (exact Except.noConfusion h)
  all_goals (injection h with h2; subst h2; exact ⟨rfl, ⟨_, rfl, rfl, rfl, rfl⟩⟩)

theorem loopGuard_false_of_ge (ls : LoopState) (h : MAX_ITERATIONS ≤ ls.iteration) :
    loopGuard ls = false := by
  unfold loopGuard
  have : ¬ (ls.iteration < MAX_ITERATIONS) := Nat.not_lt.mpr h
  simp [this]

theorem iterLoop_guard_false : ∀ (fuel : ℕ) (ep : String) (ls ls' : LoopState),
    MAX_ITERATIONS ≤ fuel + ls.iteration → iterLoop fuel ep ls = .ok ls' →
    loopGuard ls' = false := by
  intro fuel
  induction fuel with
  | zero =>
    intro ep ls ls' hf h
    unfold iterLoop at h
    injection h with h'
    subst h'
    exact loopGuard_false_of_ge _ (by omega)
  | succ n ih =>
    intro ep ls ls' hf h
    unfold iterLoop at h
    by_cases hg : loopGuard ls = true
    · rw [if_pos hg] at h
      cases hb : loopBody ep ls with
      | error e => rw [hb] at h; simp at h
      | ok ls2 =>
        rw [hb] at h
        have hit := (loopBody_ok_shape ep ls ls2 hb).1
        exact ih ep ls2 ls' (by omega) h
    · rw [if_neg hg] at h
      injection h with h'
      subst h'
      simpa using hg

theorem iterLoop_hist : ∀ (fuel : ℕ) (ep : String) (ls ls' : LoopState),
    iterLoop fuel ep ls = .ok ls' → ls.iterationHistory.length = ls.iteration →
    ls'.iterationHistory.length = ls'.iteration := by
  intro fuel
  induction fuel with
  | zero =>
    intro ep ls ls' h hl
    unfold iterLoop at h
    injection h with h'
    subst h'
    exact hl
  | succ n ih =>
    intro ep ls ls' h hl
    unfold iterLoop at h
    by_cases hg : loopGuard ls = true
    · rw [if_pos hg] at h
      cases hb : loopBody ep ls with
      | error e => rw [hb] at h; simp at h
      | ok ls2 =>
        rw [hb] at h
        obtain ⟨hit, rec, hh, -, -, -⟩ := loopBody_ok_shape ep ls ls2 hb
        exact ih ep ls2 ls' h (by simp [hh, hit, hl])
    · rw [if_neg hg] at h
      injection h with h'
      subst h'
      exact hl

theorem iterLoop_last : ∀ (fuel : ℕ) (ep : String) (ls ls' : LoopState),
    iterLoop fuel ep ls = .ok ls' → LastAligned ls → LastAligned ls' := by
  intro fuel
  induction fuel with
  | zero =>
    intro ep ls ls' h hl
    unfold iterLoop at h
    injection h with h'
    subst h'
    exact hl
  | succ n ih =>
    intro ep ls ls' h hl
    unfold iterLoop at h
    by_cases hg : loopGuard ls = true
    · rw [if_pos hg] at h
      cases hb : loopBody ep ls with
      | error e => rw [hb] at h; simp at h
      | ok ls2 =>
        rw [hb] at h
        obtain ⟨-, rec, hh, hs, hf, hi⟩ := loopBody_ok_shape ep ls ls2 hb
        exact ih ep ls2 ls' h ⟨rec, by simp [hh], hs, hf, hi⟩
    · rw [if_neg hg] at h
      injection h with h'
      subst h'
      exact hl

theorem iterLoop_bounds : ∀ (fuel : ℕ) (ep : String) (ls ls' : LoopState),
    iterLoop fuel ep ls = .ok ls' → ls.iteration ≤ MAX_ITERATIONS →
    ls.iteration ≤ ls'.iteration ∧ ls'.iteration ≤ MAX_ITERATIONS := by
  intro fuel
  induction fuel with
  | zero =>
    intro ep ls ls' h hb
    unfold iterLoop at h
    injection h with h'
    subst h'
    exact ⟨le_rfl, hb⟩
  | succ n ih =>
    intro ep ls ls' h hbnd
    unfold iterLoop at h
    by_cases hg : loopGuard ls = true
    · rw [if_pos hg] at h
      cases hb : loopBody ep ls with
      | error e => rw [hb] at h; simp at h
      | ok ls2 =>
        rw [hb] at h
        have hit := (loopBody_ok_shape ep ls ls2 hb).1
        have hlt : ls.iteration < MAX_ITERATIONS := by
          by_contra hge
          rw [loopGuard_false_of_ge ls (by omega)] at hg
          simp at hg
        have := ih ep ls2 ls' h (by omega)
        omega
    · rw [if_neg hg] at h
      injection h with h'
      subst h'
      exact ⟨le_rfl, hbnd⟩

theorem runBody_ok_elim (oracle : List (Except String String)) (prompt : String)
    (conv : Conversation) (h : runBody oracle prompt = .ok conv) :
    ∃ (ep : String) (ls0 ls : LoopState), InitState ls0 ∧
      iterLoop MAX_ITERATIONS ep ls0 = .ok ls ∧
      conv.iteration = ls.iteration ∧ conv.iterationHistory = ls.iterationHistory ∧
      conv.bestScore = ls.bestScore ∧ conv.feedback = ls.finalFeedback ∧
      conv.ideas = ls.finalIdeas := by
  unfold runBody at h
  repeat' split at h
  all_goals try (exact Except.noConfusion h)
  all_goals
    (injection h with h2; subst h2;
     refine ⟨_, _, _, ?_, by assumption, rfl, rfl, rfl, rfl, rfl⟩;
     exact ⟨rfl, rfl, ⟨_, rfl, rfl, rfl, rfl⟩⟩)

theorem generateIdeas_ok_elim (genAI : Bool) (oracle : List (Except String String))
    (prompt : String) (st : AIState) (c : Conversation)
    (hc : (generateIdeas genAI oracle prompt st).conversation = some c)
    (he : (generateIdeas genAI oracle prompt st).error = none) :
    runBody oracle prompt = .ok c := by
  unfold generateIdeas at hc he
  by_cases h1 : trimChars prompt.toList = []
  · rw [if_pos h1] at he
    simp at he
  · rw [if_neg h1] at hc he
    cases genAI with
    | false => simp at he
    | true =>
      simp only [Bool.not_true, if_neg (by simp : ¬ (false = true))] at hc he
      cases hr : runBody oracle prompt with
      | error e => rw [hr] at he; simp at he
      | ok conv =>
        rw [hr] at hc
        simp at hc
        rw [hc]

theorem loopGuard_false_elim (ls : LoopState) (h : loopGuard ls = false) :
    MAX_ITERATIONS ≤ ls.iteration ∨
      (MIN_ITERATIONS ≤ ls.iteration ∧
        ls.finalIdeas.any (fun i => ideaRatingLt i (JQ.ofInt 90)) = false) := by
  unfold loopGuard at h
  by_cases h5 : ls.iteration < MAX_ITERATIONS
  · right
    simp [h5] at h
    obtain ⟨hmin, hany⟩ := h
    refine ⟨by omega, List.any_eq_false.mpr fun x hx => ?_⟩
    simp [hany x hx]
  · left
    omega

/-- C6: a run that fails at any stage (collaborator error, extraction error or
validation failure — every `runBody` error) leaves `isLoading` false, keeps the
previous `conversation` untouched, and surfaces the thrown message in `error`. -/
theorem C6_failure_state (oracle : List (Except String String)) (prompt : String)
    (st : AIState) (e : String) (hp : ¬ (trimChars prompt.toList = []))
    (hr : runBody oracle prompt = .error e) :
    generateIdeas true oracle prompt st =
      { isLoading := false, conversation := st.conversation, error := some e } := by
  unfold generateIdeas
  rw [if_neg hp]
  simp [hr]

theorem C6_failure_state_witness :
    (¬ (trimChars "coffee".toList = [])) ∧
      runBody [.error "Network error"] "coffee" = .error "Network error" ∧
      generateIdeas true [.error "Network error"] "coffee" ⟨true, some prevConv, none⟩ =
        { isLoading := false, conversation := some prevConv, error := some "Network error" } :=
  ⟨by decide, by decide,
    C6_failure_state [.error "Network error"] "coffee" ⟨true, some prevConv, none⟩
      "Network error" (by decide) (by decide)⟩

/-- C7: an empty or whitespace-only prompt surfaces the user-input error
synchronously: the state changes only in `error`, `isLoading` is never touched,
the stored result is unchanged, and the collaborator is never consulted (the
outcome is identical for every oracle). -/
theorem C7_empty_prompt (genAI : Bool) (oracle oracle2 : List (Except String String))
    (prompt : String) (st : AIState) (hp : trimChars prompt.toList = []) :
    generateIdeas genAI oracle prompt st = { st with error := some "Please enter a prompt" } ∧
      generateIdeas genAI oracle prompt st = generateIdeas genAI oracle2 prompt st ∧
      (generateIdeas genAI oracle prompt st).isLoading = st.isLoading ∧
      (generateIdeas genAI oracle prompt st).conversation = st.conversation := by
  unfold generateIdeas
  rw [if_pos hp, if_pos hp]
  exact ⟨rfl, rfl, rfl, rfl⟩

theorem C7_empty_prompt_witness :
    generateIdeas false [.ok "x"] "   " ⟨true, some prevConv, none⟩ =
        { isLoading := true, conversation := some prevConv,
          error := some "Please enter a prompt" } ∧
      generateIdeas false [.ok "x"] "   " ⟨true, some prevConv, none⟩ =
        generateIdeas false [] "   " ⟨true, some prevConv, none⟩ ∧
      (generateIdeas false [.ok "x"] "   " ⟨true, some prevConv, none⟩).isLoading = true ∧
      (generateIdeas false [.ok "x"] "   " ⟨true, some prevConv, none⟩).conversation =
        some prevConv :=
  C7_empty_prompt false [.ok "x"] [] "   " ⟨true, some prevConv, none⟩ (by decide)

/-- C8: every successfully produced `Conversation` has as many history records
as its iteration counter. -/
theorem C8_history_length (genAI : Bool) (oracle : List (Except String String))
    (prompt : String) (st : AIState) (c : Conversation)
    (hc : (generateIdeas genAI oracle prompt st).conversation = some c)
    (he : (generateIdeas genAI oracle prompt st).error = none) :
    c.iterationHistory.length = c.iteration := by
  have hr := generateIdeas_ok_elim genAI oracle prompt st c hc he
  obtain ⟨ep, ls0, ls, ⟨hit0, hlen0, -⟩, hloop, hcit, hch, -, -, -⟩ :=
    runBody_ok_elim oracle prompt c hr
  have hl := iterLoop_hist MAX_ITERATIONS ep ls0 ls hloop (by omega)
  rw [hch, hcit]
  exact hl

theorem C8_history_length_witness : c1conv.iterationHistory.length = c1conv.iteration :=
  C8_history_length true c1oracle "coffee" ⟨false, none, none⟩ c1conv (by decide) (by decide)

/-- C10: the refinement loop strictly increments the counter under a guard
requiring it below `MAX_ITERATIONS`, so a successful run ends with an iteration
count between 1 and `MAX_ITERATIONS` (the embedding itself is total, which is
the termination claim under the assumption that every model invocation
returns). -/
theorem C10_iteration_bounds (genAI : Bool) (oracle : List (Except String String))
    (prompt : String) (st : AIState) (c : Conversation)
    (hc : (generateIdeas genAI oracle prompt st).conversation = some c)
    (he : (generateIdeas genAI oracle prompt st).error = none) :
    1 ≤ c.iteration ∧ c.iteration ≤ MAX_ITERATIONS := by
  have hr := generateIdeas_ok_elim genAI oracle prompt st c hc he
  obtain ⟨ep, ls0, ls, ⟨hit0, -, -⟩, hloop, hcit, -, -, -, -⟩ :=
    runBody_ok_elim oracle prompt c hr
  have hM : MAX_ITERATIONS = 5 := rfl
  have hb := iterLoop_bounds MAX_ITERATIONS ep ls0 ls hloop (by omega)
  rw [hcit]
  omega

theorem C10_iteration_bounds_witness :
    1 ≤ c1conv.iteration ∧ c1conv.iteration ≤ MAX_ITERATIONS :=
  C10_iteration_bounds true c1oracle "coffee" ⟨false, none, none⟩ c1conv
    (by decide) (by decide)

/-- C1, counterexample: a concrete successful two-iteration run whose first
iteration (grade `A++`, average 95.5) is strictly better under the spec's
`isBetter` than its second (grade `C`), yet the final result's `bestScore`,
`feedback` and `ideas` all come from the second — the code overwrites the
result with the latest iteration. -/
theorem C1_counterexample :
    c1res.error = none ∧
      (c1res.conversation.map (fun c =>
        match c.iterationHistory with
        | [a, b] =>
            isBetterSpec a b && !(isBetterSpec b a) &&
            decide (a.score = "A++") && decide (b.score = "C") &&
            decide (c.bestScore = b.score) && decide (c.feedback = b.feedback) &&
            decide (c.ideas = mergeIdeas b.ideas b.ratings) &&
            decide (¬ (c.bestScore = a.score))
        | _ => false)) = some true := by decide

/-- C1, amended: the final result's `bestScore`, `feedback` and `ideas` are
always those of the last history record (its ideas merged with its ratings),
not of the best iteration under any comparison. -/
theorem C1_last_iteration (genAI : Bool) (oracle : List (Except String String))
    (prompt : String) (st : AIState) (c : Conversation) (rec : IterationData)
    (hc : (generateIdeas genAI oracle prompt st).conversation = some c)
    (he : (generateIdeas genAI oracle prompt st).error = none)
    (hl : c.iterationHistory.getLast? = some rec) :
    c.bestScore = rec.score ∧ c.feedback = rec.feedback ∧
      c.ideas = mergeIdeas rec.ideas rec.ratings := by
  have hr := generateIdeas_ok_elim genAI oracle prompt st c hc he
  obtain ⟨ep, ls0, ls, ⟨-, -, hla0⟩, hloop, -, hch, hcb, hcf, hci⟩ :=
    runBody_ok_elim oracle prompt c hr
  obtain ⟨rec', hrl, hs, hf, hi⟩ := iterLoop_last MAX_ITERATIONS ep ls0 ls hloop hla0
  rw [hch] at hl
  rw [hl] at hrl
  injection hrl with hrr
  subst hrr
  exact ⟨by rw [hcb, hs], by rw [hcf, hf], by rw [hci, hi]⟩

theorem C1_last_iteration_witness :
    c1conv.bestScore = c1last.score ∧ c1conv.feedback = c1last.feedback ∧
      c1conv.ideas = mergeIdeas c1last.ideas c1last.ratings :=
  C1_last_iteration true c1oracle "coffee" ⟨false, none, none⟩ c1conv c1last
    (by decide) (by decide) (by decide)

/-- C2, counterexample: a concrete successful run whose second iteration
improves the average from 50 to 95.5 (far above the 5% threshold, and the
result records `improvementThresholdMet = true`) with the iteration counter 2
below the maximum 5 — the claimed continuation condition holds — yet the run
stops with exactly 2 history records, because the actual guard continues only
while some merged rating is below 90. -/
theorem C2_counterexample :
    c2res.error = none ∧
      (c2res.conversation.map (fun c =>
        (c.iteration, c.improvementThresholdMet, c.iterationHistory.length))) =
        some (2, true, 2) := by decide

/-- C2, amended: the controller loops while `iteration < MAX_ITERATIONS` and
(`iteration < MIN_ITERATIONS` or some merged rating is below 90) — the
improvement threshold plays no part in the guard; consequently every
successful run still has at least `MIN_ITERATIONS = 2` history records (the
minimum floor holds regardless of the first critique's grade), and at exit
either the maximum was reached or the counter is at least the minimum with
every merged rating at least 90. -/
theorem C2_loop_exit (genAI : Bool) (oracle : List (Except String String))
    (prompt : String) (st : AIState) (c : Conversation)
    (hc : (generateIdeas genAI oracle prompt st).conversation = some c)
    (he : (generateIdeas genAI oracle prompt st).error = none) :
    2 ≤ c.iterationHistory.length ∧
      (MAX_ITERATIONS ≤ c.iteration ∨
        (MIN_ITERATIONS ≤ c.iteration ∧
          c.ideas.any (fun i => ideaRatingLt i (JQ.ofInt 90)) = false)) := by
  have hr := generateIdeas_ok_elim genAI oracle prompt st c hc he
  obtain ⟨ep, ls0, ls, ⟨hit0, hlen0, -⟩, hloop, hcit, hch, -, -, hci⟩ :=
    runBody_ok_elim oracle prompt c hr
  have hg := iterLoop_guard_false MAX_ITERATIONS ep ls0 ls (by omega) hloop
  have hlen := iterLoop_hist MAX_ITERATIONS ep ls0 ls hloop (by omega)
  have hM : MAX_ITERATIONS = 5 := rfl
  have hm : MIN_ITERATIONS = 2 := rfl
  rcases loopGuard_false_elim ls hg with h5 | ⟨h2, hany⟩
  · constructor
    · rw [hch, hlen]; omega
    · left; omega
  · constructor
    · rw [hch, hlen]; omega
    · right
      rw [hci]
      exact ⟨by omega, hany⟩
  
theorem C2_loop_exit_witness :
    2 ≤ c2conv.iterationHistory.length ∧
      (MAX_ITERATIONS ≤ c2conv.iteration ∨
        (MIN_ITERATIONS ≤ c2conv.iteration ∧
          c2conv.ideas.any (fun i => ideaRatingLt i (JQ.ofInt 90)) = false)) :=
  C2_loop_exit true c2oracle "tea" ⟨false, none, none⟩ c2conv (by decide) (by decide)

theorem lookupLast_map_set (k : String) (vv : JSValue) :
    ∀ fields : List (String × JSValue),
      lookupLast (fields.map (fun p => if p.1 = k then (k, vv) else p)) k = none ∨
      lookupLast (fields.map (fun p => if p.1 = k then (k, vv) else p)) k = some vv := by
  intro fields
  induction fields with
  | nil => left; rfl
  | cons hd tl ih =>
    simp only [List.map_cons]
    by_cases h1 : hd.1 = k
    · rw [if_pos h1]
      rcases ih with h | h
      · right; simp [lookupLast, h]
      · right; simp [lookupLast, h]
    · rw [if_neg h1]
      rcases ih with h | h
      · left; simp [lookupLast, h, h1]
      · right; simp [lookupLast, h]

theorem lookupLast_map_set_mem (k : String) (vv : JSValue) :
    ∀ fields : List (String × JSValue), fields.any (fun p => p.1 = k) = true →
      lookupLast (fields.map (fun p => if p.1 = k then (k, vv) else p)) k = some vv := by
  intro fields
  induction fields with
  | nil => intro h; simp at h
  | cons hd tl ih =>
    intro hany
    simp only [List.map_cons]
    by_cases h1 : hd.1 = k
    · rw [if_pos h1]
      rcases lookupLast_map_set k vv tl with h | h
      · simp [lookupLast, h]
      · simp [lookupLast, h]
    · simp only [List.any_cons, Bool.or_eq_true, decide_eq_true_eq] at hany
      rcases hany with h | h
      · exact absurd h h1
      · rw [if_neg h1]
        simp [lookupLast, ih h]

theorem lookupLast_append (k : String) :
    ∀ l1 l2 : List (String × JSValue),
      lookupLast (l1 ++ l2) k =
        match lookupLast l2 k with
        | some r => some r
        | none => lookupLast l1 k := by
  intro l1 l2
  induction l1 with
  | nil =>
    simp only [List.nil_append]
    cases h2 : lookupLast l2 k <;> simp [lookupLast, h2]
  | cons hd tl ih =>
    cases h2 : lookupLast l2 k
    · cases h3 : lookupLast tl k
      · simp [List.cons_append, lookupLast, ih, h2, h3]
      · simp [List.cons_append, lookupLast, ih, h2, h3]
    · simp [List.cons_append, lookupLast, ih, h2]

theorem lookupLast_setKey (fields : List (String × JSValue)) (k : String) (vv : JSValue) :
    lookupLast (setKey fields k vv) k = some vv := by
  unfold setKey
  by_cases hany : fields.any (fun p => p.1 = k) = true
  · rw [if_pos hany]
    exact lookupLast_map_set_mem k vv fields hany
  · rw [if_neg hany]
    rw [lookupLast_append]
    simp [lookupLast]

theorem getKey_mergeRating (idea : JSValue) (r : JQ) :
    getKey (mergeRating idea r) "rating" = some (.num r) := by
  unfold mergeRating getKey
  exact lookupLast_setKey _ _ _

/-- C5, counterexample: the critique of `c5oracle` carries one rating against
two ideas, yet validates, the run completes successfully, the mismatched
record is stored in history (two ideas, one rating), and the rating merge pads
the unmatched idea with 0 instead of aborting. -/
theorem C5_counterexample :
    validateCriticResponse c5crit = true ∧
      c5res.error = none ∧
      (c5res.conversation.map (fun c =>
        c.iterationHistory.head?.map (fun r => (r.ideas.length, r.ratings.length)))) =
        some (some (2, 1)) ∧
      (mergeIdeas [.obj [("title", .str "a")], .obj [("title", .str "b")]]
        (ratingsOf c5crit)).map (fun i => getKey i "rating") =
        [some (.num ⟨50, 1⟩), some (.num ⟨0, 1⟩)] := by decide

/-- C5, amended: no stage compares the ratings length with the idea count —
the validator only requires a non-empty ratings array, and the merge
`ratings[index] || 0` keeps every idea, giving rating 0 to each idea whose
index is beyond the ratings array.  (The run in `C5_counterexample` stores and
completes on a mismatched critique.) -/
theorem C5_merge_pads (ideas rs : List JSValue) :
    (mergeIdeas ideas rs).length = ideas.length ∧
    ∀ i : ℕ, rs.length ≤ i → ∀ h : i < (mergeIdeas ideas rs).length,
      getKey ((mergeIdeas ideas rs).get ⟨i, h⟩) "rating" = some (.num 0) := by
  constructor
  · simp [mergeIdeas]
  · intro i hle h
    have hlen : (mergeIdeas ideas rs).length = ideas.length := by simp [mergeIdeas]
    have hget : (mergeIdeas ideas rs).get ⟨i, h⟩ =
        mergeRating (ideas.enum.get ⟨i, by simp [mergeIdeas] at h; simpa using h⟩).2
          (ratingAt rs (ideas.enum.get ⟨i, by simp [mergeIdeas] at h; simpa using h⟩).1) := by
      simp [mergeIdeas, List.getElem_map]
    rw [hget]
    have hfst : (ideas.enum.get ⟨i, by simp [mergeIdeas] at h; simpa using h⟩).1 = i := by
      simp
    rw [hfst]
    have hra : ratingAt rs i = 0 := by
      unfold ratingAt
      have : rs.get? i = none := by
        rw [List.get?_eq_none]
        exact hle
      rw [this]
    rw [hra]
    exact getKey_mergeRating _ _

theorem C5_merge_pads_witness :
    (mergeIdeas [.obj [("title", .str "a")], .obj []] [.num ⟨50, 1⟩]).length = 2 ∧
      getKey ((mergeIdeas [.obj [("title", .str "a")], .obj []] [.num ⟨50, 1⟩]).get
        ⟨1, by decide⟩) "rating" = some (.num 0) :=
  ⟨(C5_merge_pads [.obj [("title", .str "a")], .obj []] [.num ⟨50, 1⟩]).1,
    (C5_merge_pads [.obj [("title", .str "a")], .obj []] [.num ⟨50, 1⟩]).2 1 (by decide)
      (by decide)⟩

/-- C4, counterexample: a critique whose `feedback` is the non-empty
whitespace-only string fails validation, although every other required part is
valid — the source requires `feedback.trim().length > 0`, not mere
non-emptiness. -/
theorem C4_counterexample :
    (" " : String) ≠ "" ∧
      validateCriticResponse
        (.obj [("ratings", .arr [.num 50]), ("feedback", .str " "),
               ("overallScore", .str "A")]) = false := by decide

/-- C4, amended: `validateCriticResponse` returns true exactly on objects
carrying a `ratings` key with a non-empty array of (always finite) numbers in
[0,100], a `feedback` key with a string that is non-empty after trimming
whitespace, and an `overallScore` key in the 5-grade enumeration; it returns
false on every value missing a key, with a rating out of range or non-numeric,
with feedback empty or whitespace-only, or with a grade outside the
enumeration. -/
theorem C4_validate_iff (v : JSValue) :
    validateCriticResponse v = true ↔
      (∃ fs, v = .obj fs) ∧
      (∃ rs, getKey v "ratings" = some (.arr rs) ∧ rs ≠ [] ∧
        ∀ r ∈ rs, ∃ q : JQ, r = .num q ∧ q.den ≠ 0 ∧
          JQ.le 0 q = true ∧ JQ.le q 100 = true) ∧
      (∃ s, getKey v "feedback" = some (.str s) ∧ trimChars s.toList ≠ []) ∧
      (∃ g, getKey v "overallScore" = some (.str g) ∧ g ∈ validScores) := by
  cases v with
  | null => simp [validateCriticResponse, isTruthy, getKey]
  | bool b => simp [validateCriticResponse, isTruthy, isTypeofObject, getKey]
  | num q => simp [validateCriticResponse, isTruthy, isTypeofObject, getKey]
  | str s => simp [validateCriticResponse, isTruthy, isTypeofObject, getKey]
  | arr xs => simp [validateCriticResponse, isTruthy, isTypeofObject, hasKey, getKey]
  | obj fs =>
    unfold validateCriticResponse
    simp only [isTruthy, isTypeofObject, Bool.not_true, Bool.or_self, Bool.false_or,
      if_false]
    constructor
    · intro h
      rw [if_neg Bool.false_ne_true] at h
      split at h
      · exact absurd h Bool.false_ne_true
      rename_i h1
      split at h
      · exact absurd h Bool.false_ne_true
      rename_i h2
      split at h
      · exact absurd h Bool.false_ne_true
      rename_i h3
      refine ⟨⟨fs, rfl⟩, ?_, ?_, ?_⟩
      · cases hr : getKey (JSValue.obj fs) "ratings" with
        | none => rw [hr] at h2; simp at h2
        | some rv =>
          rw [hr] at h2
          cases rv with
          | arr rs =>
            simp at h2
            refine ⟨rs, rfl, ?_, ?_⟩
            · intro hrs
              subst hrs
              simp at h2
            · intro r hrm
              have hone := h2.2 r hrm
              cases r with
              | num q => refine ⟨q, rfl, ?_, ?_, ?_⟩ <;> simp_all
              | null => simp at hone
              | bool b => simp at hone
              | str s => simp at hone
              | arr a => simp at hone
              | obj o => simp at hone
          | null => simp at h2
          | bool b => simp at h2
          | num q => simp at h2
          | str s => simp at h2
          | obj o => simp at h2
      · cases hf : getKey (JSValue.obj fs) "feedback" with
        | none => rw [hf] at h3; simp at h3
        | some fv =>
          rw [hf] at h3
          cases fv with
          | str s =>
            simp at h3
            refine ⟨s, rfl, ?_⟩
            intro hts
            exact h3 hts
          | null => simp at h3
          | bool b => simp at h3
          | num q => simp at h3
          | arr a => simp at h3
          | obj o => simp at h3
      · cases hg : getKey (JSValue.obj fs) "overallScore" with
        | none => rw [hg] at h; simp at h
        | some gv =>
          rw [hg] at h
          cases gv with
          | str g =>
            refine ⟨g, rfl, ?_⟩
            simpa [validScores, List.contains] using h
          | null => simp at h
          | bool b => simp at h
          | num q => simp at h
          | arr a => simp at h
          | obj o => simp at h
    · rintro ⟨-, ⟨rs, hr, hne, hall⟩, ⟨s, hsf, hst⟩, ⟨g, hg, hgm⟩⟩
      have hk : (hasKey (JSValue.obj fs) "ratings" && hasKey (JSValue.obj fs) "feedback" &&
          hasKey (JSValue.obj fs) "overallScore") = true := by
        simp [hasKey, hr, hsf, hg]
      have hratB : (match getKey (JSValue.obj fs) "ratings" with
          | some (.arr rs) =>
              decide (0 < rs.length) && rs.all (fun r =>
                match r with
                | .num q => !(q.den = 0) && JQ.le 0 q && JQ.le q 100
                | _ => false)
          | _ => false) = true := by
        rw [hr]
        have hlen : 0 < rs.length := List.length_pos.mpr hne
        have hallB : (rs.all (fun r =>
            match r with
            | JSValue.num q => !(q.den = 0) && JQ.le 0 q && JQ.le q 100
            | _ => false)) = true :=
          List.all_eq_true.mpr (fun r hrm => by
            obtain ⟨q, rfl, hd0, hle0, hle100⟩ := hall r hrm
            simp [hd0, hle0, hle100])
        simp [hlen, hallB]
      have hfbB : (match getKey (JSValue.obj fs) "feedback" with
          | some (.str s) => decide (0 < (trimChars s.toList).length)
          | _ => false) = true := by
        rw [hsf]
        simpa using List.length_pos.mpr hst
      rw [if_neg Bool.false_ne_true, hk]
      simp only [Bool.not_true]
      rw [if_neg Bool.false_ne_true, hratB]
      simp only [Bool.not_true]
      rw [if_neg Bool.false_ne_true, hfbB]
      simp only [Bool.not_true]
      rw [if_neg Bool.false_ne_true, hg]
      simp [validScores] at hgm
      rcases hgm with rfl | rfl | rfl | rfl | rfl <;> rfl

theorem badLoopBody_ok_trace (thr : JQ) (sel : List String) (ep : String) (now : ℕ)
    (ls ls2 : BadLoopState) (h : badLoopBody thr sel ep now ls = .ok ls2) :
    ls2.dirTrace = ls.dirTrace ++ [sel] := by
  unfold badLoopBody at h
  repeat' split at h
  all_goals try (exact Except.noConfusion h)
  all_goals (injection h with h2; subst h2; rfl)

theorem badIterLoop_trace : ∀ (fuel maxIt minIt : ℕ) (thr : JQ) (sel : List String)
    (ep : String) (now : ℕ) (ls ls' : BadLoopState),
    badIterLoop fuel maxIt minIt thr sel ep now ls = .ok ls' →
    (∀ t ∈ ls.dirTrace, t = sel) → ∀ t ∈ ls'.dirTrace, t = sel := by
  intro fuel
  induction fuel with
  | zero =>
    intro maxIt minIt thr sel ep now ls ls' h hall
    unfold badIterLoop at h
    injection h with h2
    subst h2
    exact hall
  | succ n ih =>
    intro maxIt minIt thr sel ep now ls ls' h hall
    unfold badIterLoop at h
    by_cases hg : badLoopGuard maxIt minIt ls = true
    · rw [if_pos hg] at h
      cases hb : badLoopBody thr sel ep now ls with
      | error e => rw [hb] at h; simp at h
      | ok ls2 =>
        rw [hb] at h
        refine ih maxIt minIt thr sel ep now ls2 ls' h ?_
        intro t ht
        rw [badLoopBody_ok_trace thr sel ep now ls ls2 hb] at ht
        rcases List.mem_append.mp ht with h1 | h1
        · exact hall t h1
        · simpa using h1
    · rw [if_neg hg] at h
      injection h with h2
      subst h2
      exact hall

theorem badRunBody_ok_elim (maxIt minIt : ℕ) (thr : JQ) (sorted : List String) (now : ℕ)
    (oracle : List (Except String String)) (prompt : String) (conv : Conversation)
    (trace : List (List String))
    (h : badRunBody maxIt minIt thr sorted now oracle prompt = .ok (conv, trace)) :
    ∃ (ep : String) (ls0 ls : BadLoopState),
      ls0.dirTrace = [sampleDirections sorted] ∧
      badIterLoop maxIt maxIt minIt thr (sampleDirections sorted) ep now ls0 = .ok ls ∧
      trace = ls.dirTrace := by
  unfold badRunBody at h
  dsimp only [] at h
  repeat' split at h
  all_goals try (exact Except.noConfusion h)
  all_goals
    (injection h with h2;
     injection h2 with ha hb;
     subst ha; subst hb;
     refine ⟨_, _, _, ?_, by assumption, rfl⟩;
     rfl)

/-- C9, counterexample: under a configuration whose maximum allows a second
iteration (the shipped constant `badMaxIterations = 1` makes the loop body
unreachable, while the spec requires the bound to be configurable), a concrete
successful two-generation run embeds the identical direction selection into
both generator messages: the selection is sampled once per run, before the
loop, and cached — the second invocation does not freshly sample. -/
theorem C9_counterexample :
    c9run.1.error = none ∧
      c9run.2 = [["d1", "d2", "d3", "d4", "d5"], ["d1", "d2", "d3", "d4", "d5"]] ∧
      c9run.2.length = 2 ∧ c9run.2.head? = c9run.2.getLast? := by decide

/-- C9, amended: the sampler (a randomized-comparator sort, modelled by an
arbitrary permutation of the catalog, with no uniformity guarantee in
ECMAScript, then `slice(0, 5)`) yields at most five distinct entries of the
catalog; a run samples once, before the loop, and every generator invocation
of the run embeds that same cached selection. -/
theorem C9_selection (maxIt minIt : ℕ) (thr : JQ) (sorted catalog : List String) (now : ℕ)
    (oracle : List (Except String String)) (prompt : String) (conv : Conversation)
    (trace : List (List String))
    (hperm : sorted.Perm catalog) (hnd : catalog.Nodup)
    (h : badRunBody maxIt minIt thr sorted now oracle prompt = .ok (conv, trace)) :
    (sampleDirections sorted).Nodup ∧
      (∀ d ∈ sampleDirections sorted, d ∈ catalog) ∧
      (sampleDirections sorted).length = min 5 catalog.length ∧
      ∀ t ∈ trace, t = sampleDirections sorted := by
  have hsnd : sorted.Nodup := hperm.nodup_iff.mpr hnd
  refine ⟨?_, ?_, ?_, ?_⟩
  · exact (List.take_sublist 5 sorted).nodup hsnd
  · intro d hd
    exact hperm.mem_iff.mp (List.mem_of_mem_take hd)
  · simp [sampleDirections, hperm.length_eq]
  · obtain ⟨ep, ls0, ls, hd0, hloop, rfl⟩ :=
      badRunBody_ok_elim maxIt minIt thr sorted now oracle prompt conv trace h
    refine badIterLoop_trace maxIt maxIt minIt thr (sampleDirections sorted) ep now ls0 ls
      hloop ?_
    intro t ht
    rw [hd0] at ht
    simpa using ht

theorem C9_selection_witness :
    (sampleDirections c9sorted).Nodup ∧ ("d1" : String) ∈ c9catalog ∧
      (sampleDirections c9sorted).length = min 5 c9catalog.length ∧
      ["d1", "d2", "d3", "d4", "d5"] = sampleDirections c9sorted := by
  have h := C9_selection 2 badMinIterations badImprovementThreshold c9sorted c9catalog 7
    c9oracle "cake" (c9run.1.conversation.getD emptyConversation) c9run.2
    (List.Perm.refl _) (by decide) (by decide)
  exact ⟨h.1, h.2.1 "d1" (by decide), h.2.2.1,
    (h.2.2.2 ["d1", "d2", "d3", "d4", "d5"] (by decide)).symm⟩

theorem middle_of_take_drop (cs : List Char) (i n : ℕ) : (cs.drop i).take n <:+: cs :=
  ⟨cs.take i, (cs.drop i).drop n, by
    rw [List.append_assoc, List.take_append_drop, List.take_append_drop]⟩

theorem sliceIncl_middle (cs : List Char) (i j : ℕ) : sliceIncl cs i j <:+: cs :=
  middle_of_take_drop cs i (j + 1 - i)

theorem middle_of_suffix {l cs : List Char} (h : l <:+ cs) : l <:+: cs := by
  obtain ⟨t, ht⟩ := h
  exact ⟨t, [], by simp [ht]⟩

theorem middle_of_prefixRel {l cs : List Char} (h : l <+: cs) : l <:+: cs := by
  obtain ⟨t, ht⟩ := h
  exact ⟨[], t, by simp [ht]⟩

theorem middle_trans {x y z : List Char} (h1 : x <:+: y) (h2 : y <:+: z) : x <:+: z := by
  obtain ⟨s1, t1, e1⟩ := h1
  obtain ⟨s2, t2, e2⟩ := h2
  refine ⟨s2 ++ s1, t1 ++ t2, ?_⟩
  rw [← e2, ← e1]
  simp [List.append_assoc]

theorem braceSpan_middle (cs c : List Char) (h : braceSpan cs = some c) : c <:+: cs := by
  unfold braceSpan at h
  repeat' split at h
  all_goals try (exact Option.noConfusion h)
  all_goals (injection h with h2; subst h2; exact sliceIncl_middle cs _ _)

theorem bracketSpan_middle (cs c : List Char) (h : bracketSpan cs = some c) : c <:+: cs := by
  unfold bracketSpan at h
  repeat' split at h
  all_goals try (exact Option.noConfusion h)
  all_goals (injection h with h2; subst h2; exact sliceIncl_middle cs _ _)

theorem fenceJsonCand_middle (cs c : List Char) (h : fenceJsonCand cs = some c) : c <:+: cs := by
  unfold fenceJsonCand at h
  dsimp only [] at h
  repeat' split at h
  all_goals try (exact Option.noConfusion h)
  all_goals
    (injection h with h2; subst h2;
     first
       | exact sliceIncl_middle cs _ _
       | exact middle_of_take_drop cs _ _)

theorem fenceAnyCand_middle (cs c : List Char) (h : fenceAnyCand cs = some c) : c <:+: cs := by
  unfold fenceAnyCand at h
  dsimp only [] at h
  repeat' split at h
  all_goals try (exact Option.noConfusion h)
  all_goals
    (injection h with h2; subst h2;
     first
       | exact sliceIncl_middle cs _ _
       | exact middle_of_take_drop cs _ _)

theorem stripLeadJsonFence_suffix (cs : List Char) : stripLeadJsonFence cs <:+ cs := by
  unfold stripLeadJsonFence
  dsimp only []
  split
  · exact (List.dropWhile_suffix _).trans ((List.drop_suffix _ _).trans
      (List.dropWhile_suffix _))
  · exact List.suffix_refl cs

theorem reverse_suffix_to_prefixRel {l cs : List Char} (h : l <:+ cs.reverse) :
    l.reverse <+: cs := by
  obtain ⟨t, ht⟩ := h
  refine ⟨t.reverse, ?_⟩
  have := congrArg List.reverse ht
  simpa [List.reverse_append] using this

theorem stripTrailFence_prefixRel (cs : List Char) : stripTrailFence cs <+: cs := by
  unfold stripTrailFence
  dsimp only []
  split
  · exact reverse_suffix_to_prefixRel ((List.dropWhile_suffix _).trans
      ((List.drop_suffix _ _).trans (List.dropWhile_suffix _)))
  · exact List.prefix_refl cs

theorem trimChars_middle (cs : List Char) : trimChars cs <:+: cs := by
  unfold trimChars
  exact middle_trans
    (middle_of_prefixRel (reverse_suffix_to_prefixRel (List.dropWhile_suffix _)))
    (middle_of_suffix (List.dropWhile_suffix _))

theorem cleanCandidate_middle (cs : List Char) : cleanCandidate cs <:+: cs := by
  unfold cleanCandidate
  exact middle_trans
    (middle_trans (trimChars_middle _) (middle_of_prefixRel (stripTrailFence_prefixRel _)))
    (middle_of_suffix (stripLeadJsonFence_suffix _))

theorem firstParse_none : ∀ l : List (List Char),
    (∀ c ∈ l, jsonParse (cleanCandidate c) = none) → firstParse l = none := by
  intro l
  induction l with
  | nil => intro _; rfl
  | cons c rest ih =>
    intro h
    unfold firstParse
    rw [h c (by simp)]
    exact ih (fun c2 hc2 => h c2 (by simp [hc2]))

theorem candidateSpans_middle (cs : List Char) : ∀ c ∈ candidateSpans cs, c <:+: cs := by
  intro c hc
  unfold candidateSpans at hc
  rw [List.mem_filterMap] at hc
  obtain ⟨o, ho, hoc⟩ := hc
  simp only [id, Option.some.injEq] at hoc
  simp only [List.mem_cons, List.mem_singleton, List.not_mem_nil, or_false] at ho
  rcases ho with rfl | rfl | rfl | rfl
  · exact braceSpan_middle cs c hoc
  · exact bracketSpan_middle cs c hoc
  · exact fenceJsonCand_middle cs c hoc
  · exact fenceAnyCand_middle cs c hoc

theorem firstIdxOf_append_of_not_mem (c : Char) : ∀ (p l : List Char), c ∉ p →
    firstIdxOf (p ++ l) c = (firstIdxOf l c).map (· + p.length) := by
  intro p
  induction p with
  | nil =>
    intro l _
    simp only [List.nil_append, List.length_nil]
    cases h1 : firstIdxOf l c <;> simp
  | cons x xs ih =>
    intro l h
    have hx : ¬ (x = c) := fun he => h (by simp [he])
    have hxs : c ∉ xs := fun hm => h (by simp [hm])
    simp only [List.cons_append]
    rw [show firstIdxOf (x :: (xs ++ l)) c = (firstIdxOf (xs ++ l) c).map (· + 1) from by
      simp only [firstIdxOf]
      rw [if_neg hx]]
    rw [ih l hxs]
    cases h1 : firstIdxOf l c
    · rfl
    · simp
      try omega

/-- C3, amended: (a) for every text `p ++ a ++ q` whose prose parts `p`,`q`
contain no square brackets, whose middle `a` is a well-formed JSON array text
(beginning with the open bracket, ending with the close bracket, strictly
parseable), and on which the brace pattern — which the source tries FIRST —
either finds no span or finds one whose cleaned text fails to parse, the
extractor returns exactly that array; (b) for every text with no parseable
contiguous substring, the extractor fails with the extraction error and
returns nothing else.  (As stated the claim is false: the brace pattern is
tried before the array pattern, so a brace span that parses — e.g. the single
object inside a one-element array — is returned instead of the array, see the
counterexample.) -/
theorem C3_extract_behaviour :
    (∀ (p a' q : List Char) (v : List JSValue),
        '[' ∉ p → ']' ∉ p → '[' ∉ q → ']' ∉ q →
        ('[' :: a').getLast? = some ']' →
        (∀ cand, braceSpan (p ++ ('[' :: a') ++ q) = some cand →
          jsonParse (cleanCandidate cand) = none) →
        jsonParse ('[' :: a') = some (.arr v) →
        extractAndParseJSON (String.mk (p ++ ('[' :: a') ++ q)) = .ok (.arr v)) ∧
    (∀ s : String, (∀ t : List Char, t <:+: s.toList → jsonParse t = none) →
        extractAndParseJSON s = .error "No valid JSON found in response") := by
  constructor
  · intro p a' q v hp1 hp2 hq1 hq2 hlast hbrace hparse
    obtain ⟨ys, hrev⟩ : ∃ ys, ('[' :: a').reverse = ']' :: ys := by
      have hh : ('[' :: a').reverse.head? = some ']' := by
        rw [List.head?_reverse]
        exact hlast
      cases hr : ('[' :: a').reverse with
      | nil => rw [hr] at hh; simp at hh
      | cons y ys =>
        rw [hr] at hh
        simp at hh
        exact ⟨ys, by rw [hh]⟩
    have hane : a' ≠ [] := by
      intro h0
      subst h0
      simp at hlast
    have halen : 1 ≤ a'.length := List.length_pos.mpr hane
    have hfirst : firstIdxOf (p ++ ('[' :: a') ++ q) '[' = some p.length := by
      rw [List.append_assoc, firstIdxOf_append_of_not_mem '[' p _ hp1]
      simp [firstIdxOf]
    have hrevall : (p ++ ('[' :: a') ++ q).reverse =
        q.reverse ++ ((']' :: ys) ++ p.reverse) := by
      rw [← hrev]
      simp [List.reverse_append]
    have hlenys : ys.length = a'.length := by
      have := congrArg List.length hrev
      simpa using this.symm
    have hlastidx : lastIdxOf (p ++ ('[' :: a') ++ q) ']' =
        some (p.length + ('[' :: a').length - 1) := by
      unfold lastIdxOf
      rw [hrevall, firstIdxOf_append_of_not_mem ']' q.reverse _ (by simpa using hq2)]
      have h0 : firstIdxOf ((']' :: ys) ++ p.reverse) ']' = some 0 := by
        simp [firstIdxOf]
      rw [h0]
      simp only [Option.map_some', List.length_append, List.length_reverse,
        List.length_cons, Option.some.injEq]
      omega
    have hspan : bracketSpan (p ++ ('[' :: a') ++ q) = some ('[' :: a') := by
      unfold bracketSpan
      rw [hfirst, hlastidx]
      dsimp only []
      rw [if_pos (by simp only [List.length_cons]; omega)]
      have hslice : sliceIncl (p ++ ('[' :: a') ++ q) p.length
          (p.length + ('[' :: a').length - 1) = '[' :: a' := by
        unfold sliceIncl
        rw [List.append_assoc, List.drop_left]
        have harith : p.length + ('[' :: a').length - 1 + 1 - p.length =
            ('[' :: a').length := by
          simp only [List.length_cons]
          omega
        rw [harith, List.take_left]
      rw [hslice]
    have hwsA : isJsWs '[' = false := by decide
    have hwsB : isJsWs ']' = false := by decide
    have hdropA : List.dropWhile isJsWs ('[' :: a') = '[' :: a' := by
      simp [List.dropWhile_cons, hwsA]
    have hdropRev : List.dropWhile isJsWs (']' :: ys) = ']' :: ys := by
      simp [List.dropWhile_cons, hwsB]
    have hpfxJson : ("```json".toList).isPrefixOf ('[' :: a') = false := by
      simp [show "```json".toList = '`' :: "``json".toList from rfl, List.isPrefixOf]
    have hpfxTicks : ("```".toList.reverse).isPrefixOf (']' :: ys) = false := by
      simp [show "```".toList.reverse = '`' :: "``".toList from rfl, List.isPrefixOf]
    have hclean : cleanCandidate ('[' :: a') = '[' :: a' := by
      unfold cleanCandidate stripLeadJsonFence stripTrailFence trimChars
      dsimp only []
      rw [hdropA, hpfxJson]
      simp only [Bool.false_eq_true, if_false]
      rw [hrev, hdropRev, hpfxTicks]
      simp only [Bool.false_eq_true, if_false]
      rw [hdropA, hrev, hdropRev, ← hrev, List.reverse_reverse]
    unfold extractAndParseJSON
    rw [show (String.mk (p ++ ('[' :: a') ++ q)).toList = p ++ ('[' :: a') ++ q from rfl]
    unfold candidateSpans
    rw [hspan]
    cases hb : braceSpan (p ++ ('[' :: a') ++ q) with
    | none =>
      simp only [List.filterMap_cons, id]
      simp only [firstParse, hclean, hparse]
    | some cand =>
      simp only [List.filterMap_cons, id]
      simp only [firstParse, hbrace cand hb, hclean, hparse]
  · intro s hn
    unfold extractAndParseJSON
    rw [firstParse_none (candidateSpans s.toList) (fun c hc =>
      hn (cleanCandidate c)
        (middle_trans (cleanCandidate_middle c) (candidateSpans_middle s.toList c hc)))]

/-- C3 counterexample: the response text `[{"a":1}]` is, in its entirety, a
well-formed JSON array, yet the extractor returns the inner OBJECT `{"a":1}`
— the brace pattern is tried before the bracket pattern, contradicting the
claim that an embedded array is extracted as the array. -/
theorem C3_counterexample :
    jsonParse "[\x7b\"a\":1\x7d]".toList =
      some (.arr [.obj [("a", JSValue.num 1)]]) ∧
    extractAndParseJSON "[\x7b\"a\":1\x7d]" = .ok (.obj [("a", JSValue.num 1)]) := by
  decide

theorem C3_extract_behaviour_witness :
    extractAndParseJSON
        (String.mk ("ideas: ".toList ++ ('[' :: "1,2]".toList) ++ " done".toList)) =
      .ok (.arr [JSValue.num 1, JSValue.num 2]) ∧
    extractAndParseJSON "h" = .error "No valid JSON found in response" := by
  constructor
  · exact C3_extract_behaviour.1 "ideas: ".toList "1,2]".toList " done".toList
      [JSValue.num 1, JSValue.num 2]
      (by decide) (by decide) (by decide) (by decide) (by decide)
      (fun cand hc => by
        have hnone : braceSpan ("ideas: ".toList ++ ('[' :: "1,2]".toList) ++
            " done".toList) = none := by decide
        rw [hnone] at hc
        exact Option.noConfusion hc)
      (by decide)
  · exact C3_extract_behaviour.2 "h" (fun t ht => by
      have hall : (("h".toList).sublists).all (fun t2 => (jsonParse t2).isNone) = true := by
        decide
      have hmem : t ∈ ("h".toList).sublists := List.mem_sublists.mpr ht.sublist
      have hh := List.all_eq_true.mp hall t hmem
      simpa [Option.isNone_iff_eq_none] using hh)
